import Mathlib

/-!
# obdi-saltregexmanager: the `regexes` and `regex_sls_maps` RPC plugins

A shallow embedding of `go/regexes.go` and `go/regex_sls_maps.go`.

A handler is a function from the request (`Args`) and the state of the handler
process (`World`: the global `config`, the private store, the response buffer of
the call, and a log of the effects performed so far) to the state in which it
returns.  `PortLock.Lock` is a retry loop without an exit, so it is modelled with
fuel and every handler returns an `Option`: `none` means the call never returns.

Everything that is not in the two plugin sources (the authorization
collaborator, the JSON codec, gorm over sqlite3) is either a field of
`Collaborators` or a definition marked as modelled.

The lock between processes is stated on `Host`: any number of handler processes,
each with its own `PortLock`, interleaved at the calls of `net.Listen` and `Close`,
over one loopback address that has at most one holder.
-/

set_option linter.dupNamespace false

namespace Obdi

/-! ## Data model -/

/-- Row of the `regexes` table (`type Regex struct`). -/
structure Regex where
  Id : Int
  Regex : String
  Dc : String
  Env : String
  Name : String
  Desc : String
  deriving DecidableEq, Repr

/-- Row of the `regex_sls_maps` table (`type RegexSlsMap struct`). -/
structure RegexSlsMap where
  Id : Int
  RegexId : Int
  Formula : String
  StateFile : String
  deriving DecidableEq, Repr

/-- Modelled from the spec: the status of a Reply Envelope, success or failure
(the constants `SUCCESS` and `ERROR` are declared outside the plugin sources). -/
inductive Status where
  | SUCCESS
  | ERROR
  deriving DecidableEq, Repr

/-- Modelled from the spec: the Reply Envelope, "numeric code, string payload, status,
message string"; the plugins build it positionally as `Reply{0, payload, SUCCESS, ""}`. -/
structure Reply where
  Code : Int
  Text : String
  Status : Status
  Message : String
  deriving DecidableEq, Repr

/-- Modelled from the spec: the Request Envelope with its fields `QueryType`,
`QueryString` (string to list of strings), `PathParams` (string to string) and
`PostData`.  The two maps are association lists. -/
structure Args where
  QueryType : String
  QueryString : List (String × List String)
  PathParams : List (String × String)
  PostData : String
  deriving DecidableEq, Repr

/-- Go map indexing `args.QueryString[k]`: the zero value (an empty slice) for an absent key. -/
def Args.query (args : Args) (k : String) : List String :=
  (args.QueryString.lookup k).getD []

/-- Go map indexing `args.PathParams[k]`: the zero value (an empty string) for an absent key. -/
def Args.path (args : Args) (k : String) : String :=
  (args.PathParams.lookup k).getD ""

/-- Modelled from the spec: the environment descriptor returned by the authorization
collaborator, "at minimum data-center and environment system names". -/
structure Env where
  DcSysName : String
  SysName : String
  deriving DecidableEq, Repr

/-- Modelled from the spec: the authorization collaborator "returns an environment
descriptor or writes its own error Reply and signals failure". -/
inductive AuthResult where
  | allowed (env : Env)
  | denied (written : Reply)
  deriving DecidableEq, Repr

/-- The error of a gorm call: `RecordNotFound`, or any other error with its text. -/
inductive DBError where
  | recordNotFound
  | other (text : String)
  deriving DecidableEq, Repr

/-- The text of `err.Error.Error()`. -/
def DBError.Error : DBError → String
  | .recordNotFound => "record not found"
  | .other text => text

/-- The test `err.RecordNotFound()` on the result of a gorm call. -/
def DBError.RecordNotFound : DBError → Bool
  | .recordNotFound => true
  | .other _ => false

/-- `PostedData` of `regex_sls_maps.go`. -/
structure SlsPostedData where
  Classes : List String
  RegexId : Int
  deriving DecidableEq, Repr

/-- `PostedData` of `regexes.go`. -/
structure RegexPostedData where
  Desc : String
  Id : Int
  Name : String
  Regex : String
  deriving DecidableEq, Repr

/-- Everything a handler calls that lies outside the two plugin sources, as parameters:
the authorization collaborator, `gorm.Open` and `AutoMigrate` (the error text, if any),
`json.Unmarshal` into the plugin's `PostedData`, the JSON encoding of a string, and the
behaviour of the store: `fault n` makes the `n`-th store call of the request fail,
`emptyFindIsNotFound` says whether a `Find` that matches no row reports `RecordNotFound`,
`zeroKeyDeletesAll` says whether `Delete` of a value with a zero primary key removes every
row of the table, and `sqlEq` is the store's comparison of a text parameter with the value
of an integer column (the `id = ?` and `regex_id = ?` of the queries, bound to a string). -/
structure Collaborators (PD : Type) where
  GetAllowedEnv : Args → String → AuthResult
  gormOpen : String → Option String
  autoMigrate : String → Option String
  jsonUnmarshal : String → Except String PD
  jsonString : String → String
  fault : Nat → Option DBError
  emptyFindIsNotFound : Bool
  zeroKeyDeletesAll : Bool
  sqlEq : String → Int → Bool

/-! ## Process state -/

/-- The listener field `ln` of a `PortLock`: never bound, bound, or closed again. -/
inductive Listener where
  | nil
  | listening
  | closed
  deriving DecidableEq, Repr

/-- `type PortLock struct`. -/
structure PortLock where
  hostport : String
  ln : Listener
  deriving DecidableEq, Repr

/-- `type Config struct`. -/
structure Config where
  Dbname : String
  Portlock : PortLock
  Port : Nat
  deriving DecidableEq, Repr

/-- `(*Config).DBPath`. -/
def Config.DBPath (c : Config) : String :=
  c.Dbname

/-- `(*Config).SetDBPath`. -/
def Config.SetDBPath (c : Config) (path : String) : Config :=
  { c with Dbname := path }

/-- `NewPortLock`: the loopback address of the port, no listener yet. -/
def NewPortLock (port : Nat) : PortLock :=
  { hostport := "127.0.0.1" ++ ":" ++ toString port, ln := .nil }

/-- The global `config` as `main` leaves it before serving: `NewConfig()`, then the port
49993 and its lock. -/
def mainConfig : Config :=
  { Dbname := "", Portlock := NewPortLock 49993, Port := 49993 }

/-- The private store: the two tables the plugins read and write. -/
structure Store where
  regexes : List Regex
  regex_sls_maps : List RegexSlsMap
  deriving DecidableEq, Repr

/-- The four verb handlers of a plugin. -/
inductive Handler where
  | GetRequest
  | PostRequest
  | PutRequest
  | DeleteRequest
  deriving DecidableEq, Repr

/-- The store calls the handlers make through gorm. -/
inductive StoreOp where
  | Find
  | Create
  | Save
  | Delete
  deriving DecidableEq, Repr

/-- The effects a handler performs, in the order of the log. -/
inductive Event where
  | enter (h : Handler)
  | authorize (envId : String)
  | collaboratorReply (r : Reply)
  | reply (r : Reply)
  | setDBPath (path : String)
  | openStore (name : String)
  | migrate (table : String)
  | addIndex
  | lock
  | unlock
  | store (op : StoreOp)
  deriving DecidableEq, Repr

/-- State of the handler process during one call: the global `config`, the store, the
response buffer of the call, the log of effects, and the number of store calls made. -/
structure World where
  config : Config
  db : Store
  response : Option Reply
  log : List Event
  calls : Nat
  deriving DecidableEq, Repr

/-- The state in which a call starts: nothing written, nothing logged. -/
def World.start (config : Config) (db : Store) : World :=
  { config := config, db := db, response := none, log := [], calls := 0 }

/-- Append an effect to the log. -/
def World.emit (w : World) (e : Event) : World :=
  { w with log := w.log ++ [e] }

/-- Whether this process holds the port lock: its listener is bound. -/
def World.held (w : World) : Bool :=
  w.config.Portlock.ln == .listening

/-! ## Helpers declared outside the plugin sources -/

/-- Modelled from the spec: `ReturnError` is not in the plugin sources; an error reply
"carries empty/diagnostic payload, status failure, and a human-readable message", and the
numeric code is "always 0".  It writes the response. -/
def ReturnError (text : String) (w : World) : World :=
  let r : Reply := { Code := 0, Text := "", Status := .ERROR, Message := text }
  { w with response := some r, log := w.log ++ [.reply r] }

/-- The success path `*response = jsondata` for `reply`. -/
def writeReply (r : Reply) (w : World) : World :=
  { w with response := some r, log := w.log ++ [.reply r] }

/-- A failed `GetAllowedEnv` has written its own reply into the response. -/
def collaboratorWrote (r : Reply) (w : World) : World :=
  { w with response := some r, log := w.log ++ [.collaboratorReply r] }

/-! ## Port lock -/

/-- `(*PortLock).Lock`: try to bind the loopback port; on failure sleep and try again,
for ever.  In a single handler process the bind fails exactly when the process's own
listener is still bound.  `none` when the fuel runs out. -/
def PortLock.Lock : Nat → World → Option World
  | 0, _ => none
  | fuel + 1, w =>
    if w.config.Portlock.ln = .listening then
      PortLock.Lock fuel w
    else
      some { w with
        config := { w.config with Portlock := { w.config.Portlock with ln := .listening } },
        log := w.log ++ [.lock] }

/-- `(*PortLock).Unlock`: close the listener if there is one. -/
def PortLock.Unlock (w : World) : World :=
  match w.config.Portlock.ln with
  | .nil => { w with log := w.log ++ [.unlock] }
  | _ =>
    { w with
      config := { w.config with Portlock := { w.config.Portlock with ln := .closed } },
      log := w.log ++ [.unlock] }

/-- The package function `Lock`. -/
def Lock (fuel : Nat) (w : World) : Option World :=
  PortLock.Lock fuel w

/-- The package function `Unlock`. -/
def Unlock (w : World) : World :=
  PortLock.Unlock w

/-! ## Library functions used by the handlers -/

/-- The scan of `strings.Split` for a one-character separator: `cur` holds the current
piece, reversed. -/
def strings.splitFrom (sep : Char) : List Char → List Char → List String
  | cur, [] => [String.mk cur.reverse]
  | cur, c :: cs =>
    if c = sep then String.mk cur.reverse :: strings.splitFrom sep [] cs
    else strings.splitFrom sep (c :: cur) cs

/-- `strings.Split(s, sep)` for a one-character separator: the pieces of `s` between the
occurrences of `sep`; a string without `sep`, the empty string included, gives one piece. -/
def strings.Split (s : String) (sep : Char) : List String :=
  strings.splitFrom sep [] s.data

/-- Value of a decimal digit. -/
def strconv.digit (c : Char) : Option Nat :=
  if 48 ≤ c.toNat ∧ c.toNat ≤ 57 then some (c.toNat - 48) else none

/-- The digit loop of `strconv.ParseUint` in base 10, without the overflow cut. -/
def strconv.digits : Nat → List Char → Option Nat
  | acc, [] => some acc
  | acc, c :: cs =>
    match strconv.digit c with
    | none => none
    | some d => strconv.digits (acc * 10 + d) cs

/-- `strconv.ParseInt(s, 10, 64)`: the value and whether `err == nil`.  A malformed
string gives 0, a value out of range gives the nearest bound of int64. -/
def strconv.ParseInt (s : String) : Int × Bool :=
  let body (neg : Bool) (ds : List Char) : Int × Bool :=
    match ds with
    | [] => (0, false)
    | _ :: _ =>
      match strconv.digits 0 ds with
      | none => (0, false)
      | some un =>
        if neg = false ∧ 2 ^ 63 ≤ un then ((2 : Int) ^ 63 - 1, false)
        else if neg = true ∧ 2 ^ 63 < un then (-(2 : Int) ^ 63, false)
        else if neg then (-(un : Int), true)
        else ((un : Int), true)
  match s.data with
  | [] => (0, false)
  | c :: cs =>
    if c = '+' then body false cs
    else if c = '-' then body true cs
    else body false (c :: cs)

/-- `strconv.FormatInt(i, 10)`. -/
def strconv.FormatInt (i : Int) : String :=
  toString i

/-- JSON array of already encoded elements; an empty (non-nil) slice encodes as `[]`. -/
def jsonArray (elems : List String) : String :=
  "[" ++ ",".intercalate elems ++ "]"

/-- `json.Marshal` of the map built in `GetRequest` of `regex_sls_maps.go`
(keys in sorted order). -/
def jsonSlsMap (q : String → String) (m : RegexSlsMap) : String :=
  "\x7b\"Formula\":" ++ q m.Formula ++ ",\"Id\":" ++ toString m.Id ++
    ",\"RegexId\":" ++ toString m.RegexId ++ ",\"StateFile\":" ++ q m.StateFile ++ "\x7d"

/-- `json.Marshal` of the map built in `GetRequest` of `regexes.go` (keys in sorted order). -/
def jsonRegexMap (q : String → String) (r : Regex) : String :=
  "\x7b\"Dc\":" ++ q r.Dc ++ ",\"Desc\":" ++ q r.Desc ++ ",\"Env\":" ++ q r.Env ++
    ",\"Id\":" ++ toString r.Id ++ ",\"Name\":" ++ q r.Name ++ ",\"Regex\":" ++ q r.Regex ++ "\x7d"

/-- `json.Marshal` of a `Regex` struct (fields in declaration order). -/
def jsonRegex (q : String → String) (r : Regex) : String :=
  "\x7b\"Id\":" ++ toString r.Id ++ ",\"Regex\":" ++ q r.Regex ++ ",\"Dc\":" ++ q r.Dc ++
    ",\"Env\":" ++ q r.Env ++ ",\"Name\":" ++ q r.Name ++ ",\"Desc\":" ++ q r.Desc ++ "\x7d"

/-- `json.Marshal(v)` with its error result; for the values the handlers encode (integers
and strings in maps, slices and structs) the encoder has no failing case. -/
def jsonMarshal (encoded : String) : Except String String :=
  .ok encoded

/-! ## The store, as the handlers use it through gorm -/

/-- Bookkeeping of one store call: it is logged and counted. -/
def World.storeCall (w : World) (op : StoreOp) : World :=
  { w with log := w.log ++ [.store op], calls := w.calls + 1 }

/-- Modelled from the spec: "identifier 0 ⇒ insert ... returns the persisted record
including any store-assigned identifier"; the identifier assigned is one above the
largest in the table. -/
def freshId (ids : List Int) : Int :=
  ids.foldr max 0 + 1

/-- Modelled from the spec: Read (all-or-filtered), `db.Find(&rows, cond...)`: the rows
of the table that satisfy the condition.  The call fails when the collaborators say
so; a result without rows reports `RecordNotFound` when the store is one that does. -/
def gormFind {PD α : Type} (c : Collaborators PD) (table : List α) (cond : α → Bool)
    (w : World) : List α × Option DBError × World :=
  match c.fault w.calls with
  | some e => ([], some e, w.storeCall .Find)
  | none =>
    if (table.filter cond).isEmpty && c.emptyFindIsNotFound then
      ([], some .recordNotFound, w.storeCall .Find)
    else (table.filter cond, none, w.storeCall .Find)

/-- Modelled from the spec: `db.Where("regex_id = ?", id).Delete(RegexSlsMap{})`,
"delete all existing child records for that parent". -/
def gormDeleteMaps {PD : Type} (c : Collaborators PD) (RegexId : Int) (w : World) :
    Option DBError × World :=
  match c.fault w.calls with
  | some e => (some e, w.storeCall .Delete)
  | none =>
    (none, { w.storeCall .Delete with
      db := { w.db with
        regex_sls_maps := w.db.regex_sls_maps.filter fun m => m.RegexId != RegexId } })

/-- Modelled from the spec: `db.Create(&regexmap)`, "insert one new child record"; the
record gets a store-assigned identifier. -/
def gormCreateMap {PD : Type} (c : Collaborators PD) (m : RegexSlsMap) (w : World) :
    RegexSlsMap × Option DBError × World :=
  match c.fault w.calls with
  | some e => (m, some e, w.storeCall .Create)
  | none =>
    let row := { m with Id := freshId (w.db.regex_sls_maps.map (·.Id)) }
    (row, none, { w.storeCall .Create with
      db := { w.db with regex_sls_maps := w.db.regex_sls_maps ++ [row] } })

/-- Modelled from the spec: `db.Save(&regex)`, "identifier 0 ⇒ insert; nonzero ⇒
update-by-identifier; returns the persisted record including any store-assigned
identifier". -/
def gormSaveRegex {PD : Type} (c : Collaborators PD) (r : Regex) (w : World) :
    Regex × Option DBError × World :=
  match c.fault w.calls with
  | some e => (r, some e, w.storeCall .Save)
  | none =>
    if r.Id = 0 then
      let row := { r with Id := freshId (w.db.regexes.map (·.Id)) }
      (row, none, { w.storeCall .Save with
        db := { w.db with regexes := w.db.regexes ++ [row] } })
    else
      (r, none, { w.storeCall .Save with
        db := { w.db with regexes := w.db.regexes.map fun x => if x.Id = r.Id then r else x } })

/-- Modelled from the spec: `db.Delete(&regex)`, delete by identifier: the rows whose
primary key is that of `regex` go; a zero primary key removes nothing, or every row when
the store is one that deletes without a condition then. -/
def gormDeleteRegex {PD : Type} (c : Collaborators PD) (r : Regex) (w : World) :
    Option DBError × World :=
  match c.fault w.calls with
  | some e => (some e, w.storeCall .Delete)
  | none =>
    if r.Id = 0 ∧ c.zeroKeyDeletesAll = true then
      (none, { w.storeCall .Delete with db := { w.db with regexes := [] } })
    else
      (none, { w.storeCall .Delete with
        db := { w.db with regexes := w.db.regexes.filter fun x => x.Id != r.Id } })

/-- `(*GormDB).InitDB`: open `<dbname>enc.db`, migrate the three tables, add the index;
the error text on failure.  `ApiError` and the texts of the gorm errors are as the
collaborators give them. -/
def InitDB {PD : Type} (c : Collaborators PD) (w : World) : Option String × World :=
  let dbname := w.config.DBPath
  let w1 := w.emit (.openStore (dbname ++ "enc.db"))
  match c.gormOpen (dbname ++ "enc.db") with
  | some err => (some ("Open " ++ dbname ++ " failed. " ++ err), w1)
  | none =>
    let w2 := w1.emit (.migrate "Enc")
    match c.autoMigrate "Enc" with
    | some err => (some ("AutoMigrate Enc table failed: " ++ err), w2)
    | none =>
      let w3 := w2.emit (.migrate "Regex")
      match c.autoMigrate "Regex" with
      | some err => (some ("AutoMigrate Regex table failed: " ++ err), w3)
      | none =>
        let w4 := w3.emit (.migrate "RegexSlsMap")
        match c.autoMigrate "RegexSlsMap" with
        | some err => (some ("AutoMigrate RegexSlsMap table failed: " ++ err), w4)
        | none => (none, w4.emit .addIndex)

/-- `NewDB`: a new `GormDB`, initialised. -/
def NewDB {PD : Type} (c : Collaborators PD) (w : World) : Option String × World :=
  InitDB c w

/-- The call `t.GetAllowedEnv(args, env_id_str, response)`: on failure the collaborator
has written the response. -/
def GetAllowedEnv {PD : Type} (c : Collaborators PD) (args : Args) (env_id_str : String)
    (w : World) : AuthResult × World :=
  match c.GetAllowedEnv args env_id_str with
  | .allowed env => (.allowed env, w.emit (.authorize env_id_str))
  | .denied r => (.denied r, collaboratorWrote r (w.emit (.authorize env_id_str)))

/-- The statement `config.SetDBPath(path)`. -/
def SetDBPath (path : String) (w : World) : World :=
  { w with config := w.config.SetDBPath path, log := w.log ++ [.setDBPath path] }

/-- A handler that returns: the Go `error` it returns (`none` is `nil`) and the state. -/
abbrev Returned := Option String × World

/-- The statement `return nil`. -/
def returnNil (w : World) : Option Returned :=
  some (none, w)

/-- `json.Marshal(reply)`: the response buffer is kept as the reply it encodes; the
encoder has no failing case for a `Reply`. -/
def jsonMarshalReply (r : Reply) : Except String Reply :=
  .ok r

/-- The closing statements of every handler: build `Reply{0, payload, SUCCESS, ""}`,
marshal it and write it to the response; a marshal error becomes an error reply. -/
def respondWith (text : String) (w : World) : Option Returned :=
  match jsonMarshalReply { Code := 0, Text := text, Status := .SUCCESS, Message := "" } with
  | .error err => returnNil (ReturnError ("Marshal error: " ++ err) w)
  | .ok jsondata => returnNil (writeReply jsondata w)

/-- The statements that marshal the payload first (`TempJsonData, err := json.Marshal(..)`)
and then reply with it. -/
def respond (payload : Except String String) (w : World) : Option Returned :=
  match payload with
  | .error err => returnNil (ReturnError ("Marshal error: " ++ err) w)
  | .ok text => respondWith text w

/-- The opening statements of every handler, the same in all six: require `env_id`, ask
the authorization collaborator, require `PluginDatabasePath`, set the store path and open
the store.  `Except.error w`: the handler returns `nil` in state `w`; `Except.ok`: it goes
on with the environment found. -/
def preamble {PD : Type} (c : Collaborators PD) (args : Args) (w : World) :
    Except World (Env × World) :=
  match args.query "env_id" with
  | [] => .error (ReturnError "'env_id' must be set" w)
  | env_id_str :: _ =>
    match GetAllowedEnv c args env_id_str w with
    | (.denied _, w1) => .error w1
    | (.allowed foundenv, w1) =>
      if args.path "PluginDatabasePath" = "" then
        .error (ReturnError "Internal Error: 'PluginDatabasePath' must be set" w1)
      else
        match NewDB c (SetDBPath (args.path "PluginDatabasePath") w1) with
        | (some err, w2) =>
          .error (ReturnError
            ("GormDB open error for '" ++ w2.config.DBPath ++ "enc.db'. " ++ err) w2)
        | (none, w2) => .ok (foundenv, w2)

/-- The reply to a body that `json.Unmarshal` rejects. -/
def decodeError (postData err : String) : String :=
  "Error decoding the POST data (" ++ postData ++ "). " ++ "Error decoding JSON ('" ++ err ++ "')."

/-! ## `regex_sls_maps.go` -/

namespace Sls

/-- The statements of `GetRequest` after a `Find` has returned: on an error other than
`RecordNotFound` unlock and reply with it; else unlock and reply with the rows. -/
def GetRequest.found (c : Collaborators SlsPostedData)
    (r : List RegexSlsMap × Option DBError × World) : Option Returned :=
  match r with
  | (maps, some err, w) =>
    if !err.RecordNotFound then returnNil (ReturnError err.Error (Unlock w))
    else respond (jsonMarshal (jsonArray (maps.map (jsonSlsMap c.jsonString)))) (Unlock w)
  | (maps, none, w) =>
    respond (jsonMarshal (jsonArray (maps.map (jsonSlsMap c.jsonString)))) (Unlock w)

/-- `(*Plugin).GetRequest` of `regex_sls_maps.go`. -/
def GetRequest (c : Collaborators SlsPostedData) (fuel : Nat) (args : Args) (w0 : World) :
    Option Returned :=
  match preamble c args (w0.emit (.enter .GetRequest)) with
  | .error w => returnNil w
  | .ok (_, w) =>
    match args.query "regex_id" with
    | [] =>
      (Lock fuel w).bind fun w1 =>
        GetRequest.found c (gormFind c w1.db.regex_sls_maps (fun _ => true) w1)
    | regex_id :: _ =>
      (Lock fuel w).bind fun w1 =>
        GetRequest.found c
          (gormFind c w1.db.regex_sls_maps (fun m => c.sqlEq regex_id m.RegexId) w1)

/-- The record `PostRequest` builds from one posted key: split at ".", one piece gives
the formula, two give the formula and the state file; `none` stands for `continue`. -/
def PostRequest.regexmap (RegexId : Int) (key : String) : Option RegexSlsMap :=
  match strings.Split key '.' with
  | [] => none
  | [formula] => some { Id := 0, Formula := formula, StateFile := "", RegexId := RegexId }
  | [formula, statefile] =>
    some { Id := 0, Formula := formula, StateFile := statefile, RegexId := RegexId }
  | _ => some { Id := 0, Formula := "", StateFile := "", RegexId := RegexId }

/-- The loop `for i := range postdata.Classes` of `PostRequest`.  `true`: the loop ran
to its end; `false`: a `Create` failed, the error reply is written and the handler
returns. -/
def PostRequest.addClasses (c : Collaborators SlsPostedData) (fuel : Nat) (RegexId : Int) :
    List String → World → Option (Bool × World)
  | [], w => some (true, w)
  | key :: rest, w =>
    match PostRequest.regexmap RegexId key with
    | none => PostRequest.addClasses c fuel RegexId rest w
    | some regexmap =>
      (Lock fuel w).bind fun w1 =>
        match gormCreateMap c regexmap w1 with
        | (_, some err, w2) => some (false, ReturnError err.Error (Unlock w2))
        | (_, none, w2) => PostRequest.addClasses c fuel RegexId rest (Unlock w2)

/-- The statements of `PostRequest` after the delete: add the classes, then reply. -/
def PostRequest.addAndReply (c : Collaborators SlsPostedData) (fuel : Nat)
    (postdata : SlsPostedData) (w : World) : Option Returned :=
  (PostRequest.addClasses c fuel postdata.RegexId postdata.Classes w).bind fun r =>
    match r with
    | (false, w1) => returnNil w1
    | (true, w1) => respondWith "" w1

/-- `(*Plugin).PostRequest` of `regex_sls_maps.go`: replace the children of a regex. -/
def PostRequest (c : Collaborators SlsPostedData) (fuel : Nat) (args : Args) (w0 : World) :
    Option Returned :=
  match preamble c args (w0.emit (.enter .PostRequest)) with
  | .error w => returnNil w
  | .ok (_, w) =>
    match c.jsonUnmarshal args.PostData with
    | .error err => returnNil (ReturnError (decodeError args.PostData err) w)
    | .ok postdata =>
      (Lock fuel w).bind fun w1 =>
        match gormDeleteMaps c postdata.RegexId w1 with
        | (some err, w2) =>
          if !err.RecordNotFound then returnNil (ReturnError err.Error (Unlock w2))
          else PostRequest.addAndReply c fuel postdata (Unlock w2)
        | (none, w2) => PostRequest.addAndReply c fuel postdata (Unlock w2)

/-- `(*Plugin).HandleRequest` of `regex_sls_maps.go`: the handlers' results are dropped. -/
def HandleRequest (c : Collaborators SlsPostedData) (fuel : Nat) (args : Args) (w : World) :
    Option Returned :=
  if args.QueryType.length > 0 then
    if args.QueryType = "GET" then
      (GetRequest c fuel args w).bind fun r => returnNil r.2
    else if args.QueryType = "POST" then
      (PostRequest c fuel args w).bind fun r => returnNil r.2
    else
      returnNil (ReturnError
        ("Internal error: Invalid HTTP request type for this plugin " ++ args.QueryType) w)
  else
    returnNil (ReturnError "Internal error: HTTP request type was not set" w)

end Sls

/-! ## `regexes.go` -/

namespace Regexes

/-- The statements of `GetRequest` after the `Find` has returned. -/
def GetRequest.found (c : Collaborators RegexPostedData)
    (r : List Regex × Option DBError × World) : Option Returned :=
  match r with
  | (regexes, some err, w) =>
    if !err.RecordNotFound then returnNil (ReturnError err.Error (Unlock w))
    else respond (jsonMarshal (jsonArray (regexes.map (jsonRegexMap c.jsonString)))) (Unlock w)
  | (regexes, none, w) =>
    respond (jsonMarshal (jsonArray (regexes.map (jsonRegexMap c.jsonString)))) (Unlock w)

/-- `(*Plugin).GetRequest` of `regexes.go`: the regexes of the environment. -/
def GetRequest (c : Collaborators RegexPostedData) (fuel : Nat) (args : Args) (w0 : World) :
    Option Returned :=
  match preamble c args (w0.emit (.enter .GetRequest)) with
  | .error w => returnNil w
  | .ok (foundenv, w) =>
    (Lock fuel w).bind fun w1 =>
      GetRequest.found c
        (gormFind c w1.db.regexes
          (fun x => x.Dc == foundenv.DcSysName && x.Env == foundenv.SysName) w1)

/-- The statements `Lock(); db.Save(&regex)...; Unlock()` and the reply that end
`PostRequest` and `PutRequest`. -/
def saveAndReply (c : Collaborators RegexPostedData) (fuel : Nat) (regex : Regex)
    (w : World) : Option Returned :=
  (Lock fuel w).bind fun w1 =>
    match gormSaveRegex c regex w1 with
    | (_, some err, w2) => returnNil (ReturnError ("Update error: " ++ err.Error) (Unlock w2))
    | (saved, none, w2) => respond (jsonMarshal (jsonRegex c.jsonString saved)) (Unlock w2)

/-- `(*Plugin).PostRequest` of `regexes.go`: create a regex in the environment. -/
def PostRequest (c : Collaborators RegexPostedData) (fuel : Nat) (args : Args) (w0 : World) :
    Option Returned :=
  match preamble c args (w0.emit (.enter .PostRequest)) with
  | .error w => returnNil w
  | .ok (foundenv, w) =>
    match c.jsonUnmarshal args.PostData with
    | .error err => returnNil (ReturnError (decodeError args.PostData err) w)
    | .ok postdata =>
      saveAndReply c fuel
        { Id := 0, Regex := postdata.Regex, Dc := foundenv.DcSysName, Env := foundenv.SysName,
          Name := postdata.Name, Desc := postdata.Desc } w

/-- The statements of `PutRequest` and `DeleteRequest` after their `Find` has returned:
an error other than `RecordNotFound` unlocks and replies with it; `RecordNotFound` replies
"not found" and returns; `Except.ok` stands for going on (after `Unlock()`). -/
def lookedUp (id : String) (r : List Regex × Option DBError × World) :
    Except World World :=
  match r with
  | (_, some err, w) =>
    if !err.RecordNotFound then .error (ReturnError err.Error (Unlock w))
    else .error (ReturnError ("Regex Id:" ++ id ++ " not found") w)
  | (_, none, w) => .ok (Unlock w)

/-- `(*Plugin).PutRequest` of `regexes.go`: update a regex of the environment. -/
def PutRequest (c : Collaborators RegexPostedData) (fuel : Nat) (args : Args) (w0 : World) :
    Option Returned :=
  match preamble c args (w0.emit (.enter .PutRequest)) with
  | .error w => returnNil w
  | .ok (foundenv, w) =>
    match c.jsonUnmarshal args.PostData with
    | .error err => returnNil (ReturnError (decodeError args.PostData err) w)
    | .ok postdata =>
      (Lock fuel w).bind fun w1 =>
        match lookedUp (strconv.FormatInt postdata.Id)
            (gormFind c w1.db.regexes
              (fun x => x.Id == postdata.Id && x.Dc == foundenv.DcSysName
                && x.Env == foundenv.SysName) w1) with
        | .error w2 => returnNil w2
        | .ok w2 =>
          saveAndReply c fuel
            { Id := postdata.Id, Regex := postdata.Regex, Dc := foundenv.DcSysName,
              Env := foundenv.SysName, Name := postdata.Name, Desc := postdata.Desc } w2

/-- The statements `Lock(); db.Delete(&regex)...; Unlock()` and the reply that end
`DeleteRequest`. -/
def deleteAndReply (c : Collaborators RegexPostedData) (fuel : Nat) (regex : Regex)
    (w : World) : Option Returned :=
  (Lock fuel w).bind fun w1 =>
    match gormDeleteRegex c regex w1 with
    | (some err, w2) => returnNil (ReturnError ("Update error: " ++ err.Error) (Unlock w2))
    | (none, w2) => respond (jsonMarshal (jsonRegex c.jsonString regex)) (Unlock w2)

/-- `(*Plugin).DeleteRequest` of `regexes.go`: delete a regex of the environment. -/
def DeleteRequest (c : Collaborators RegexPostedData) (fuel : Nat) (args : Args)
    (w0 : World) : Option Returned :=
  match preamble c args (w0.emit (.enter .DeleteRequest)) with
  | .error w => returnNil w
  | .ok (foundenv, w) =>
    (Lock fuel w).bind fun w1 =>
      match lookedUp (args.path "id")
          (gormFind c w1.db.regexes
            (fun x => c.sqlEq (args.path "id") x.Id && x.Dc == foundenv.DcSysName
              && x.Env == foundenv.SysName) w1) with
      | .error w2 => returnNil w2
      | .ok w2 =>
        deleteAndReply c fuel
          { Id := (strconv.ParseInt (args.path "id")).1, Regex := "",
            Dc := foundenv.DcSysName, Env := foundenv.SysName, Name := "", Desc := "" } w2

/-- `(*Plugin).HandleRequest` of `regexes.go`: the handlers' results are dropped. -/
def HandleRequest (c : Collaborators RegexPostedData) (fuel : Nat) (args : Args)
    (w : World) : Option Returned :=
  if args.QueryType.length > 0 then
    if args.QueryType = "GET" then
      (GetRequest c fuel args w).bind fun r => returnNil r.2
    else if args.QueryType = "POST" then
      (PostRequest c fuel args w).bind fun r => returnNil r.2
    else if args.QueryType = "PUT" then
      (PutRequest c fuel args w).bind fun r => returnNil r.2
    else if args.QueryType = "DELETE" then
      (DeleteRequest c fuel args w).bind fun r => returnNil r.2
    else
      returnNil (ReturnError
        ("Internal error: Invalid HTTP request type for this plugin " ++ args.QueryType) w)
  else
    returnNil (ReturnError "Internal error: HTTP request type was not set" w)

end Regexes

/-! ## Properties of a log -/

/-- Number of times the response was written: by the handler (`ReturnError` or the
success reply) or by the authorization collaborator. -/
def replies : List Event → Nat
  | [] => 0
  | .reply _ :: es => replies es + 1
  | .collaboratorReply _ :: es => replies es + 1
  | _ :: es => replies es

/-- One step of the scan for lock intervals.  The state is `none` while the lock is
free and `some n` while it is held with `n` store calls made since it was acquired.
The outer `none` is a violation: a store call without the lock, a second store call in
one interval, a release of an interval without exactly one store call, a release of a
free lock or an acquisition of a held one. -/
def intervalStep : Option Nat → Event → Option (Option Nat)
  | none, .lock => some (some 0)
  | some _, .lock => none
  | some n, .unlock => if n = 1 then some none else none
  | none, .unlock => none
  | some n, .store _ => if n = 0 then some (some 1) else none
  | none, .store _ => none
  | s, _ => some s

/-- The scan for lock intervals over a log. -/
def intervalScan : Option Nat → List Event → Option (Option Nat)
  | s, [] => some s
  | s, e :: es => (intervalStep s e).bind fun s1 => intervalScan s1 es

/-- Every store call of the log is made with the lock held, and every lock interval,
closed or still open at the end, holds exactly one store call. -/
def lockPerCall (es : List Event) : Prop :=
  intervalScan none es = some none ∨ intervalScan none es = some (some 1)

instance (es : List Event) : Decidable (lockPerCall es) := by
  unfold lockPerCall
  exact inferInstance

/-- The state in which a call started in `World.start config db` returns when all it did
was to log `es` and to write the reply `r`: the configuration and the store are as they
were and no store call was made. -/
def World.answered (config : Config) (db : Store) (es : List Event) (r : Reply) : World :=
  { config := config, db := db, response := some r, log := es, calls := 0 }

/-- The response after a log, from the response before it: the reply written last. -/
def lastWrite : Option Reply → List Event → Option Reply
  | x, [] => x
  | _, .reply r :: es => lastWrite (some r) es
  | _, .collaboratorReply r :: es => lastWrite (some r) es
  | x, _ :: es => lastWrite x es

/-- `Ran w w1 r s s1`: the state `w1` is `w` after some more events, among them `r` writes
of the response, the last of which is the response of `w1`, and the lock scan goes from
`s` to `s1` over them. -/
def Ran (w w1 : World) (r : Nat) (s s1 : Option Nat) : Prop :=
  ∃ es, w1.log = w.log ++ es ∧ replies es = r ∧ intervalScan s es = some s1 ∧
    w1.response = lastWrite w.response es

/-- `Finished w w1`: a handler entered in `w` with the lock free has returned in `w1`
after one write of the response, every store call in a lock interval of its own. -/
def Finished (w w1 : World) : Prop :=
  ∃ s1, (s1 = none ∨ s1 = some 1) ∧ Ran w w1 1 none s1

/-- The collaborators let the request through the opening statements of a handler:
`env_id` is set and the collaborator allows the environment `env`, the store path is
set, and the store opens and migrates. -/
def Admits {PD : Type} (c : Collaborators PD) (args : Args) (env : Env) : Prop :=
  (∃ e rest, args.query "env_id" = e :: rest ∧ c.GetAllowedEnv args e = .allowed env) ∧
    args.path "PluginDatabasePath" ≠ "" ∧
    c.gormOpen (args.path "PluginDatabasePath" ++ "enc.db") = none ∧
    c.autoMigrate "Enc" = none ∧ c.autoMigrate "Regex" = none ∧
    c.autoMigrate "RegexSlsMap" = none

/-! ## Concrete requests for the evaluations -/

/-- A text without the blanks around it. -/
def trimBlanks (cs : List Char) : List Char :=
  ((cs.dropWhile fun c => c == ' ').reverse.dropWhile fun c => c == ' ').reverse

/-- A numeral without its fraction when the fraction is made of zeros: `7.0` is `7`. -/
def dropZeroFraction (cs : List Char) : List Char :=
  match cs.span fun c => c != '.' with
  | (whole, '.' :: fraction) => if fraction.all fun c => c == '0' then whole else cs
  | _ => cs

/-- The comparison of the store in the evaluations.  sqlite reads a text that is compared
with an integer column as a number: blanks around it do not count and a fraction of zeros
does not either, so that `7`, ` 7` and `7.0` are all equal to 7, and a text that is not a
numeral is equal to no integer. -/
def sqliteIntEq (param : String) (v : Int) : Bool :=
  strconv.ParseInt (String.mk (dropZeroFraction (trimBlanks param.data))) == (v, true)

/-- Collaborators that let everything through: environment `(dc1, env1)`, a store that
opens, a body that decodes to `posted`, and a store without failures that reports
`RecordNotFound` for a `Find` without rows. -/
def permissive {PD : Type} (posted : PD) : Collaborators PD :=
  { GetAllowedEnv := fun _ _ => .allowed { DcSysName := "dc1", SysName := "env1" }
    gormOpen := fun _ => none
    autoMigrate := fun _ => none
    jsonUnmarshal := fun _ => .ok posted
    jsonString := fun s => "\"" ++ s ++ "\""
    fault := fun _ => none
    emptyFindIsNotFound := true
    zeroKeyDeletesAll := false
    sqlEq := sqliteIntEq }

/-- A request with `env_id` and the store path set, and `id` as the path parameter. -/
def request (verb id : String) : Args :=
  { QueryType := verb
    QueryString := [("env_id", ["1"])]
    PathParams := [("PluginDatabasePath", "/var/db/"), ("id", id)]
    PostData := "" }

/-- Collaborators whose authorization collaborator refuses with the reply `r`. -/
def refusing {PD : Type} (posted : PD) (r : Reply) : Collaborators PD :=
  { permissive posted with GetAllowedEnv := fun _ _ => .denied r }

/-- A regex of another environment, `(dc2, env2)`, with identifier 5. -/
def foreignRegex : Regex :=
  { Id := 5, Regex := "web.*", Dc := "dc2", Env := "env2", Name := "web", Desc := "web servers" }

/-- A store that holds only `foreignRegex`. -/
def foreignStore : Store :=
  { regexes := [foreignRegex], regex_sls_maps := [] }

/-- An empty store. -/
def emptyStore : Store :=
  { regexes := [], regex_sls_maps := [] }

/-- The permissive collaborators over a store that reports no error for a `Find`
without rows. -/
def silent {PD : Type} (posted : PD) : Collaborators PD :=
  { permissive posted with emptyFindIsNotFound := false }

/-- The permissive collaborators over a store that reports no error for a `Find` without
rows and whose `Delete` of a value with a zero primary key has no condition and removes
every row of the table. -/
def unconditional {PD : Type} (posted : PD) : Collaborators PD :=
  { permissive posted with emptyFindIsNotFound := false, zeroKeyDeletesAll := true }

/-- A request with the store path set but no `env_id`. -/
def bareRequest (verb : String) : Args :=
  { QueryType := verb
    QueryString := []
    PathParams := [("PluginDatabasePath", "/var/db/")]
    PostData := "" }

/-- The reply of a collaborator that refuses. -/
def refusal : Reply :=
  { Code := 0, Text := "", Status := .ERROR, Message := "Not allowed" }

/-- The permissive collaborators, but with a body that `json.Unmarshal` rejects. -/
def undecodable {PD : Type} (posted : PD) : Collaborators PD :=
  { permissive posted with jsonUnmarshal := fun _ => .error "unexpected end of JSON input" }

/-- A regex of the environment `(dc1, env1)`, with identifier 7. -/
def ownRegex : Regex :=
  { Id := 7, Regex := "db.*", Dc := "dc1", Env := "env1", Name := "db", Desc := "databases" }

/-- A store with a regex of each of two environments. -/
def mixedStore : Store :=
  { regexes := [foreignRegex, ownRegex], regex_sls_maps := [] }

/-- The children of a store as (parent, formula, state file). -/
def children (db : Store) : List (Int × String × String) :=
  db.regex_sls_maps.map fun m => (m.RegexId, m.Formula, m.StateFile)

/-! ## Several handler processes and the loopback address of the lock -/

/-- One handler process, as far as the port lock goes: its `PortLock`, whether it is
inside a call of `Lock` that has not returned, and whether it is between a returned
`Lock` and its `Unlock`. -/
structure Peer where
  Portlock : PortLock
  inLock : Bool
  entered : Bool
  deriving DecidableEq, Repr

/-- Who has the loopback address of the lock bound: one of the handler processes, or a
program that is not a handler. -/
inductive Holder where
  | peer (i : Nat)
  | foreign
  deriving DecidableEq, Repr

/-- Modelled from the spec: the host on which the handler processes run.  "At most one
process may simultaneously hold a bound listener on that exact address; OS-level bind
atomicity is the mutual-exclusion test": the address has at most one holder. -/
structure Host where
  bound : Option Holder
  peers : Nat → Peer

/-- The host with the state of process `i` replaced. -/
def Host.set (h : Host) (i : Nat) (p : Peer) : Host :=
  { h with peers := fun j => if j = i then p else h.peers j }

/-- What a process can do with its lock: call `Lock`, run one pass of the loop of `Lock`
(`net.Listen`, then return or sleep), call `Unlock`. -/
inductive Action where
  | callLock (i : Nat)
  | listen (i : Nat)
  | callUnlock (i : Nat)
  deriving DecidableEq, Repr

/-- One step of one process; the processes interleave at the calls of `net.Listen` and
`Close`.  A process inside `Lock` can only go on with the loop.
`listen`: `net.Listen` succeeds exactly when the address has no holder; then `p.ln = l`
and `Lock` returns, else the process sleeps and stays in the loop.
`callUnlock`: `if p.ln != nil { p.ln.Close() }`; closing the bound listener frees the
address, closing a closed one does nothing. -/
def Host.step (h : Host) : Action → Host
  | .callLock i =>
    if (h.peers i).inLock then h
    else h.set i { (h.peers i) with inLock := true }
  | .listen i =>
    if (h.peers i).inLock then
      match h.bound with
      | none =>
        { bound := some (.peer i)
          peers := (h.set i { Portlock := { (h.peers i).Portlock with ln := .listening }
                              inLock := false
                              entered := true }).peers }
      | some _ => h
    else h
  | .callUnlock i =>
    if (h.peers i).inLock then h
    else
      match (h.peers i).Portlock.ln with
      | .nil => h.set i { (h.peers i) with entered := false }
      | .closed => h.set i { (h.peers i) with entered := false }
      | .listening =>
        { bound := if h.bound = some (.peer i) then none else h.bound
          peers := (h.set i { Portlock := { (h.peers i).Portlock with ln := .closed }
                              inLock := false
                              entered := false }).peers }

/-- The host after a schedule of steps. -/
def Host.run (h : Host) (schedule : List Action) : Host :=
  schedule.foldl Host.step h

/-- The host when the handler processes start: each has done `NewPortLock(port)` in
`main`; the address is free or held by a program that is not a handler. -/
def Host.boot (port : Nat) (taken : Bool) : Host :=
  { bound := if taken then some .foreign else none
    peers := fun _ => { Portlock := NewPortLock port, inLock := false, entered := false } }

/-- What holds of every host reached from `Host.boot port`: a process whose listener is
bound is the holder of the address, a process between `Lock` and `Unlock` has its
listener bound, and every lock is on the loopback address of `port`. -/
def Host.Sound (port : Nat) (h : Host) : Prop :=
  ∀ i, ((h.peers i).Portlock.ln = .listening → h.bound = some (.peer i)) ∧
    ((h.peers i).entered = true → (h.peers i).Portlock.ln = .listening) ∧
    (h.peers i).Portlock.hostport = "127.0.0.1" ++ ":" ++ toString port

/-! ## Lemmas on logs and on the blocks of the handlers -/

theorem replies_append (a b : List Event) : replies (a ++ b) = replies a + replies b := by
  induction a with
  | nil => simp [replies]
  | cons e es ih => cases e <;> simp [replies, ih] <;> omega

theorem intervalScan_append (s : Option Nat) (a b : List Event) :
    intervalScan s (a ++ b) = (intervalScan s a).bind fun s1 => intervalScan s1 b := by
  induction a generalizing s with
  | nil => simp [intervalScan]
  | cons e es ih =>
    simp only [List.cons_append, intervalScan]
    cases intervalStep s e with
    | none => rfl
    | some s1 => simpa using ih s1

theorem lastWrite_append (x : Option Reply) (a b : List Event) :
    lastWrite x (a ++ b) = lastWrite (lastWrite x a) b := by
  induction a generalizing x with
  | nil => simp [lastWrite]
  | cons e es ih => cases e <;> simp [lastWrite, ih]

theorem lastWrite_of_isSome (x : Option Reply) (es : List Event) (h : x.isSome = true) :
    (lastWrite x es).isSome = true := by
  induction es generalizing x with
  | nil => simpa [lastWrite] using h
  | cons e es ih =>
    cases e <;> simp only [lastWrite] <;> first | exact ih _ rfl | exact ih _ h

theorem lastWrite_isSome (x : Option Reply) (es : List Event) (h : 0 < replies es) :
    (lastWrite x es).isSome = true := by
  induction es generalizing x with
  | nil => simp [replies] at h
  | cons e es ih =>
    cases e <;> simp only [lastWrite, replies] at h ⊢ <;>
      first | exact lastWrite_of_isSome _ _ rfl | exact ih _ h

theorem Ran.trans {w w1 w2 : World} {r r1 : Nat} {s s1 s2 : Option Nat}
    (h : Ran w w1 r s s1) (h1 : Ran w1 w2 r1 s1 s2) : Ran w w2 (r + r1) s s2 := by
  obtain ⟨es, hl, hr, hs, hw⟩ := h
  obtain ⟨es1, hl1, hr1, hs1, hw1⟩ := h1
  refine ⟨es ++ es1, ?_, ?_, ?_, ?_⟩
  · rw [hl1, hl, List.append_assoc]
  · rw [replies_append, hr, hr1]
  · rw [intervalScan_append, hs]; simpa using hs1
  · rw [lastWrite_append, ← hw, hw1]

@[simp] theorem Unlock_log (w : World) : (Unlock w).log = w.log ++ [.unlock] := by
  unfold Unlock PortLock.Unlock; split <;> rfl

@[simp] theorem Unlock_db (w : World) : (Unlock w).db = w.db := by
  unfold Unlock PortLock.Unlock; split <;> rfl

@[simp] theorem Unlock_response (w : World) : (Unlock w).response = w.response := by
  unfold Unlock PortLock.Unlock; split <;> rfl

@[simp] theorem Unlock_free (w : World) : (Unlock w).config.Portlock.ln ≠ .listening := by
  unfold Unlock PortLock.Unlock; split <;> simp_all

theorem Lock_free (fuel : Nat) (w : World) (h : w.config.Portlock.ln ≠ .listening) :
    ∃ w1, Lock (fuel + 1) w = some w1 ∧ w1.log = w.log ++ [.lock] ∧ w1.db = w.db ∧
      w1.calls = w.calls ∧ w1.response = w.response ∧
      w1.config.Portlock.ln = .listening := by
  simp [Lock, PortLock.Lock, h]

theorem Lock_held (fuel : Nat) (w : World) (h : w.config.Portlock.ln = .listening) :
    Lock fuel w = none := by
  induction fuel with
  | zero => rfl
  | succ n ih => simpa [Lock, PortLock.Lock, h] using ih

theorem Lock_ran (fuel : Nat) (w : World) (h : w.config.Portlock.ln ≠ .listening) :
    ∃ w1, Lock (fuel + 1) w = some w1 ∧ Ran w w1 0 none (some 0) := by
  obtain ⟨w1, hk, hl, _, _, hr, _⟩ := Lock_free fuel w h
  exact ⟨w1, hk, by simp [Ran, hl, hr, replies, intervalScan, intervalStep, lastWrite]⟩

theorem Ran.emit_enter (w : World) (h : Handler) (s : Option Nat) :
    Ran w (w.emit (.enter h)) 0 s s := by
  simp [Ran, World.emit, replies, intervalScan, intervalStep, lastWrite]

theorem Finished.of_ReturnError (text : String) (w : World) :
    Finished w (ReturnError text w) :=
  ⟨none, Or.inl rfl, by simp [Ran, ReturnError, replies, intervalScan, intervalStep, lastWrite]⟩

theorem gormFind_world {PD α : Type} (c : Collaborators PD) (table : List α) (cond : α → Bool)
    (w : World) : ∃ rows err, gormFind c table cond w = (rows, err, w.storeCall .Find) := by
  unfold gormFind
  cases c.fault w.calls with
  | some e => exact ⟨_, _, rfl⟩
  | none => simp only []; split <;> exact ⟨_, _, rfl⟩

theorem gormSaveRegex_world {PD : Type} (c : Collaborators PD) (r : Regex) (w : World) :
    ∃ saved err w1, gormSaveRegex c r w = (saved, err, w1) ∧
      w1.log = w.log ++ [.store .Save] ∧ w1.response = w.response := by
  unfold gormSaveRegex
  cases c.fault w.calls with
  | some e => exact ⟨_, _, _, rfl, rfl, rfl⟩
  | none => simp only []; split <;> exact ⟨_, _, _, rfl, rfl, rfl⟩

theorem gormDeleteRegex_world {PD : Type} (c : Collaborators PD) (r : Regex) (w : World) :
    ∃ err w1, gormDeleteRegex c r w = (err, w1) ∧
      w1.log = w.log ++ [.store .Delete] ∧ w1.response = w.response := by
  unfold gormDeleteRegex
  cases c.fault w.calls with
  | some e => exact ⟨_, _, rfl, rfl, rfl⟩
  | none => simp only []; split <;> exact ⟨_, _, rfl, rfl, rfl⟩

theorem gormDeleteMaps_world {PD : Type} (c : Collaborators PD) (id : Int) (w : World) :
    ∃ err w1, gormDeleteMaps c id w = (err, w1) ∧
      w1.log = w.log ++ [.store .Delete] ∧ w1.response = w.response := by
  unfold gormDeleteMaps
  cases c.fault w.calls with
  | some e => exact ⟨_, _, rfl, rfl, rfl⟩
  | none => exact ⟨_, _, rfl, rfl, rfl⟩

theorem gormCreateMap_world {PD : Type} (c : Collaborators PD) (m : RegexSlsMap) (w : World) :
    ∃ row err w1, gormCreateMap c m w = (row, err, w1) ∧
      w1.log = w.log ++ [.store .Create] ∧ w1.response = w.response := by
  unfold gormCreateMap
  cases c.fault w.calls with
  | some e => exact ⟨_, _, _, rfl, rfl, rfl⟩
  | none => exact ⟨_, _, _, rfl, rfl, rfl⟩

theorem preamble_ran {PD : Type} (c : Collaborators PD) (args : Args) (w : World)
    (s : Option Nat) :
    match preamble c args w with
    | .error w1 => Ran w w1 1 s s ∧ w1.config.Portlock = w.config.Portlock ∧ w1.db = w.db
    | .ok (_, w1) =>
      Ran w w1 0 s s ∧ w1.config.Portlock = w.config.Portlock ∧ w1.db = w.db := by
  unfold preamble GetAllowedEnv NewDB InitDB
  cases h0 : args.query "env_id" with
  | nil => simp [Ran, ReturnError, replies, intervalScan, intervalStep, lastWrite]
  | cons e es =>
    cases h1 : c.GetAllowedEnv args e with
    | denied r =>
      simp [h1, Ran, collaboratorWrote, World.emit, replies, intervalScan, intervalStep,
        lastWrite]
    | allowed env =>
      by_cases hp : args.path "PluginDatabasePath" = ""
      · simp [h1, hp, Ran, ReturnError, World.emit, replies, intervalScan, intervalStep,
          lastWrite]
      · cases h2 : c.gormOpen (args.path "PluginDatabasePath" ++ "enc.db") <;>
          cases h3 : c.autoMigrate "Enc" <;> cases h4 : c.autoMigrate "Regex" <;>
          cases h5 : c.autoMigrate "RegexSlsMap" <;>
          simp [h1, h2, h3, h4, h5, hp, Ran, ReturnError, World.emit, SetDBPath,
            Config.SetDBPath, Config.DBPath, replies, intervalScan, intervalStep, lastWrite]

theorem enter_preamble {PD : Type} (c : Collaborators PD) (args : Args) (w : World)
    (hd : Handler) (h : w.config.Portlock.ln ≠ .listening) :
    match preamble c args (w.emit (.enter hd)) with
    | .error w1 => Finished w w1
    | .ok (_, w1) => Ran w w1 0 none none ∧ w1.config.Portlock.ln ≠ .listening := by
  have hp := preamble_ran c args (w.emit (.enter hd)) none
  have he := Ran.emit_enter w hd none
  cases hq : preamble c args (w.emit (.enter hd)) with
  | error w1 =>
    rw [hq] at hp
    exact ⟨none, Or.inl rfl, by simpa using he.trans hp.1⟩
  | ok p =>
    obtain ⟨env, w1⟩ := p
    rw [hq] at hp
    refine ⟨by simpa using he.trans hp.1, ?_⟩
    rw [hp.2.1]
    exact h

theorem sls_found_ran (c : Collaborators SlsPostedData) (table : List RegexSlsMap)
    (cond : RegexSlsMap → Bool) (w : World) :
    ∃ w1, Sls.GetRequest.found c (gormFind c table cond w) = some (none, w1) ∧
      Ran w w1 1 (some 0) none := by
  obtain ⟨rows, err, h⟩ := gormFind_world c table cond w
  rw [h]
  unfold Sls.GetRequest.found
  rcases err with _ | _ | _ <;>
    simp [DBError.RecordNotFound, Ran, returnNil, ReturnError, respond, respondWith,
      jsonMarshal, jsonMarshalReply, writeReply, World.storeCall, replies, intervalScan, intervalStep, lastWrite]

theorem regexes_found_ran (c : Collaborators RegexPostedData) (table : List Regex)
    (cond : Regex → Bool) (w : World) :
    ∃ w1, Regexes.GetRequest.found c (gormFind c table cond w) = some (none, w1) ∧
      Ran w w1 1 (some 0) none := by
  obtain ⟨rows, err, h⟩ := gormFind_world c table cond w
  rw [h]
  unfold Regexes.GetRequest.found
  rcases err with _ | _ | _ <;>
    simp [DBError.RecordNotFound, Ran, returnNil, ReturnError, respond, respondWith,
      jsonMarshal, jsonMarshalReply, writeReply, World.storeCall, replies, intervalScan, intervalStep, lastWrite]

theorem regexes_saveAndReply_ran (c : Collaborators RegexPostedData) (fuel : Nat)
    (regex : Regex) (w : World) (h : w.config.Portlock.ln ≠ .listening) :
    ∃ w1, Regexes.saveAndReply c (fuel + 1) regex w = some (none, w1) ∧
      Ran w w1 1 none none := by
  unfold Regexes.saveAndReply
  obtain ⟨w1, hk, hl1, _, _, hr1, _⟩ := Lock_free fuel w h
  obtain ⟨saved, err, w2, hs, hl, hr⟩ := gormSaveRegex_world c regex w1
  simp only [hk, Option.some_bind]
  rw [hs]
  cases err <;>
    simp [hl, hl1, hr, hr1, Ran, returnNil, ReturnError, respond, respondWith, jsonMarshal,
      jsonMarshalReply, writeReply, replies, intervalScan, intervalStep, lastWrite]

theorem regexes_deleteAndReply_ran (c : Collaborators RegexPostedData) (fuel : Nat)
    (regex : Regex) (w : World) (h : w.config.Portlock.ln ≠ .listening) :
    ∃ w1, Regexes.deleteAndReply c (fuel + 1) regex w = some (none, w1) ∧
      Ran w w1 1 none none := by
  unfold Regexes.deleteAndReply
  obtain ⟨w1, hk, hl1, _, _, hr1, _⟩ := Lock_free fuel w h
  obtain ⟨err, w2, hs, hl, hr⟩ := gormDeleteRegex_world c regex w1
  simp only [hk, Option.some_bind]
  rw [hs]
  cases err <;>
    simp [hl, hl1, hr, hr1, Ran, returnNil, ReturnError, respond, respondWith, jsonMarshal,
      jsonMarshalReply, writeReply, replies, intervalScan, intervalStep, lastWrite]

theorem regexes_lookedUp_ran (c : Collaborators RegexPostedData) (id : String)
    (table : List Regex) (cond : Regex → Bool) (w : World) :
    match Regexes.lookedUp id (gormFind c table cond w) with
    | .error w1 => Ran w w1 1 (some 0) none ∨ Ran w w1 1 (some 0) (some 1)
    | .ok w1 => Ran w w1 0 (some 0) none ∧ w1.config.Portlock.ln ≠ .listening := by
  obtain ⟨rows, err, h⟩ := gormFind_world c table cond w
  rw [h]
  unfold Regexes.lookedUp
  rcases err with _ | _ | _ <;>
    simp [DBError.RecordNotFound, Ran, ReturnError, World.storeCall, replies, intervalScan, intervalStep, lastWrite]

theorem sls_addClasses_ran (c : Collaborators SlsPostedData) (fuel : Nat) (id : Int)
    (keys : List String) (w : World) (h : w.config.Portlock.ln ≠ .listening) :
    ∃ b w1, Sls.PostRequest.addClasses c (fuel + 1) id keys w = some (b, w1) ∧
      Ran w w1 (if b then 0 else 1) none none ∧ w1.config.Portlock.ln ≠ .listening := by
  induction keys generalizing w with
  | nil =>
    exact ⟨true, w, rfl, ⟨[], by simp, rfl, rfl, rfl⟩, h⟩
  | cons key rest ih =>
    unfold Sls.PostRequest.addClasses
    cases Sls.PostRequest.regexmap id key with
    | none => exact ih w h
    | some regexmap =>
      simp only []
      obtain ⟨w1, hk, hl1, _, _, hr1, _⟩ := Lock_free fuel w h
      obtain ⟨row, err, w2, hs, hl, hr⟩ := gormCreateMap_world c regexmap w1
      simp only [hk, Option.some_bind]
      rw [hs]
      cases err with
      | some e =>
        refine ⟨false, _, rfl, ?_, ?_⟩
        · simp [hl, hl1, hr, hr1, Ran, ReturnError, replies, intervalScan, intervalStep, lastWrite]
        · simp [ReturnError]
      | none =>
        obtain ⟨b, w3, h3, hr3, hf⟩ := ih (Unlock w2) (Unlock_free w2)
        refine ⟨b, w3, h3, ?_, hf⟩
        have h0 : Ran w (Unlock w2) 0 none none := by
          simp [hl, hl1, hr, hr1, Ran, replies, intervalScan, intervalStep, lastWrite]
        simpa using h0.trans hr3

theorem sls_addAndReply_ran (c : Collaborators SlsPostedData) (fuel : Nat)
    (postdata : SlsPostedData) (w : World) (h : w.config.Portlock.ln ≠ .listening) :
    ∃ w1, Sls.PostRequest.addAndReply c (fuel + 1) postdata w = some (none, w1) ∧
      Ran w w1 1 none none := by
  unfold Sls.PostRequest.addAndReply
  obtain ⟨b, w1, h1, hr, _⟩ := sls_addClasses_ran c fuel postdata.RegexId postdata.Classes w h
  rw [h1]
  cases b with
  | false => exact ⟨w1, rfl, by simpa using hr⟩
  | true =>
    refine ⟨_, rfl, ?_⟩
    have h2 : Ran w1 (writeReply { Code := 0, Text := "", Status := .SUCCESS, Message := "" } w1)
        1 none none := by
      simp [Ran, writeReply, replies, intervalScan, intervalStep, lastWrite]
    simpa using hr.trans h2

theorem sls_GetRequest_finished (c : Collaborators SlsPostedData) (fuel : Nat) (args : Args)
    (w : World) (h : w.config.Portlock.ln ≠ .listening) :
    ∃ w1, Sls.GetRequest c (fuel + 1) args w = some (none, w1) ∧ Finished w w1 := by
  unfold Sls.GetRequest
  have hp := enter_preamble c args w .GetRequest h
  cases hq : preamble c args (w.emit (.enter .GetRequest)) with
  | error w1 =>
    rw [hq] at hp
    exact ⟨w1, rfl, hp⟩
  | ok p =>
    obtain ⟨env, w1⟩ := p
    rw [hq] at hp
    obtain ⟨w2, hk, hl⟩ := Lock_ran fuel w1 hp.2
    cases args.query "regex_id" with
    | nil =>
      simp only [hk, Option.some_bind]
      obtain ⟨w3, h3, hr⟩ := sls_found_ran c w2.db.regex_sls_maps (fun _ => true) w2
      exact ⟨w3, h3, none, Or.inl rfl, by simpa using (hp.1.trans hl).trans hr⟩
    | cons regex_id _ =>
      simp only [hk, Option.some_bind]
      obtain ⟨w3, h3, hr⟩ := sls_found_ran c w2.db.regex_sls_maps
        (fun m => c.sqlEq regex_id m.RegexId) w2
      exact ⟨w3, h3, none, Or.inl rfl, by simpa using (hp.1.trans hl).trans hr⟩

theorem sls_PostRequest_finished (c : Collaborators SlsPostedData) (fuel : Nat) (args : Args)
    (w : World) (h : w.config.Portlock.ln ≠ .listening) :
    ∃ w1, Sls.PostRequest c (fuel + 1) args w = some (none, w1) ∧ Finished w w1 := by
  unfold Sls.PostRequest
  have hp := enter_preamble c args w .PostRequest h
  cases hq : preamble c args (w.emit (.enter .PostRequest)) with
  | error w1 =>
    rw [hq] at hp
    exact ⟨w1, rfl, hp⟩
  | ok p =>
    obtain ⟨env, w1⟩ := p
    rw [hq] at hp
    cases c.jsonUnmarshal args.PostData with
    | error err =>
      refine ⟨_, rfl, none, Or.inl rfl, ?_⟩
      have h2 : Ran w1 (ReturnError (decodeError args.PostData err) w1) 1 none none := by
        simp [Ran, ReturnError, replies, intervalScan, intervalStep, lastWrite]
      simpa using hp.1.trans h2
    | ok postdata =>
      obtain ⟨w2, hk, hl⟩ := Lock_ran fuel w1 hp.2
      obtain ⟨err, w3, hs, hl3, hr3⟩ := gormDeleteMaps_world c postdata.RegexId w2
      simp only [hk, Option.some_bind]
      rw [hs]
      have hu : Ran w2 (Unlock w3) 0 (some 0) none := by
        simp [Ran, hl3, hr3, replies, intervalScan, intervalStep, lastWrite]
      obtain ⟨w4, h4, hr4⟩ := sls_addAndReply_ran c fuel postdata (Unlock w3) (Unlock_free w3)
      have hall : Ran w w4 1 none none := by
        simpa using ((hp.1.trans hl).trans hu).trans hr4
      rcases err with _ | _ | text
      · exact ⟨w4, h4, none, Or.inl rfl, hall⟩
      · exact ⟨w4, by simpa [DBError.RecordNotFound] using h4, none, Or.inl rfl, hall⟩
      · refine ⟨ReturnError (DBError.other text).Error (Unlock w3),
          by simp [DBError.RecordNotFound, returnNil], none, Or.inl rfl, ?_⟩
        have h5 : Ran (Unlock w3) (ReturnError (DBError.other text).Error (Unlock w3))
            1 none none := by
          simp [Ran, ReturnError, replies, intervalScan, intervalStep, lastWrite]
        simpa using ((hp.1.trans hl).trans hu).trans h5

theorem regexes_GetRequest_finished (c : Collaborators RegexPostedData) (fuel : Nat)
    (args : Args) (w : World) (h : w.config.Portlock.ln ≠ .listening) :
    ∃ w1, Regexes.GetRequest c (fuel + 1) args w = some (none, w1) ∧ Finished w w1 := by
  unfold Regexes.GetRequest
  have hp := enter_preamble c args w .GetRequest h
  cases hq : preamble c args (w.emit (.enter .GetRequest)) with
  | error w1 =>
    rw [hq] at hp
    exact ⟨w1, rfl, hp⟩
  | ok p =>
    obtain ⟨env, w1⟩ := p
    rw [hq] at hp
    obtain ⟨w2, hk, hl⟩ := Lock_ran fuel w1 hp.2
    simp only [hk, Option.some_bind]
    obtain ⟨w3, h3, hr⟩ := regexes_found_ran c w2.db.regexes
      (fun x => x.Dc == env.DcSysName && x.Env == env.SysName) w2
    exact ⟨w3, h3, none, Or.inl rfl, by simpa using (hp.1.trans hl).trans hr⟩

theorem regexes_PostRequest_finished (c : Collaborators RegexPostedData) (fuel : Nat)
    (args : Args) (w : World) (h : w.config.Portlock.ln ≠ .listening) :
    ∃ w1, Regexes.PostRequest c (fuel + 1) args w = some (none, w1) ∧ Finished w w1 := by
  unfold Regexes.PostRequest
  have hp := enter_preamble c args w .PostRequest h
  cases hq : preamble c args (w.emit (.enter .PostRequest)) with
  | error w1 =>
    rw [hq] at hp
    exact ⟨w1, rfl, hp⟩
  | ok p =>
    obtain ⟨env, w1⟩ := p
    rw [hq] at hp
    cases c.jsonUnmarshal args.PostData with
    | error err =>
      refine ⟨_, rfl, none, Or.inl rfl, ?_⟩
      have h2 : Ran w1 (ReturnError (decodeError args.PostData err) w1) 1 none none := by
        simp [Ran, ReturnError, replies, intervalScan, intervalStep, lastWrite]
      simpa using hp.1.trans h2
    | ok postdata =>
      obtain ⟨w2, h2, hr⟩ := regexes_saveAndReply_ran c fuel
        { Id := 0, Regex := postdata.Regex, Dc := env.DcSysName, Env := env.SysName,
          Name := postdata.Name, Desc := postdata.Desc } w1 hp.2
      exact ⟨w2, h2, none, Or.inl rfl, by simpa using hp.1.trans hr⟩

theorem regexes_PutRequest_finished (c : Collaborators RegexPostedData) (fuel : Nat)
    (args : Args) (w : World) (h : w.config.Portlock.ln ≠ .listening) :
    ∃ w1, Regexes.PutRequest c (fuel + 1) args w = some (none, w1) ∧ Finished w w1 := by
  unfold Regexes.PutRequest
  have hp := enter_preamble c args w .PutRequest h
  cases hq : preamble c args (w.emit (.enter .PutRequest)) with
  | error w1 =>
    rw [hq] at hp
    exact ⟨w1, rfl, hp⟩
  | ok p =>
    obtain ⟨env, w1⟩ := p
    rw [hq] at hp
    cases c.jsonUnmarshal args.PostData with
    | error err =>
      refine ⟨_, rfl, none, Or.inl rfl, ?_⟩
      have h2 : Ran w1 (ReturnError (decodeError args.PostData err) w1) 1 none none := by
        simp [Ran, ReturnError, replies, intervalScan, intervalStep, lastWrite]
      simpa using hp.1.trans h2
    | ok postdata =>
      obtain ⟨w2, hk, hl⟩ := Lock_ran fuel w1 hp.2
      simp only [hk, Option.some_bind]
      have hu := regexes_lookedUp_ran c (strconv.FormatInt postdata.Id) w2.db.regexes
        (fun x => x.Id == postdata.Id && x.Dc == env.DcSysName && x.Env == env.SysName) w2
      cases hv : Regexes.lookedUp (strconv.FormatInt postdata.Id) (gormFind c w2.db.regexes
        (fun x => x.Id == postdata.Id && x.Dc == env.DcSysName && x.Env == env.SysName) w2) with
      | error w3 =>
        rw [hv] at hu
        rcases hu with hu | hu
        · exact ⟨w3, rfl, none, Or.inl rfl, by simpa using (hp.1.trans hl).trans hu⟩
        · exact ⟨w3, rfl, some 1, Or.inr rfl, by simpa using (hp.1.trans hl).trans hu⟩
      | ok w3 =>
        rw [hv] at hu
        obtain ⟨w4, h4, hr⟩ := regexes_saveAndReply_ran c fuel
          { Id := postdata.Id, Regex := postdata.Regex, Dc := env.DcSysName,
            Env := env.SysName, Name := postdata.Name, Desc := postdata.Desc } w3 hu.2
        exact ⟨w4, h4, none, Or.inl rfl, by simpa using ((hp.1.trans hl).trans hu.1).trans hr⟩

theorem regexes_DeleteRequest_finished (c : Collaborators RegexPostedData) (fuel : Nat)
    (args : Args) (w : World) (h : w.config.Portlock.ln ≠ .listening) :
    ∃ w1, Regexes.DeleteRequest c (fuel + 1) args w = some (none, w1) ∧ Finished w w1 := by
  unfold Regexes.DeleteRequest
  have hp := enter_preamble c args w .DeleteRequest h
  cases hq : preamble c args (w.emit (.enter .DeleteRequest)) with
  | error w1 =>
    rw [hq] at hp
    exact ⟨w1, rfl, hp⟩
  | ok p =>
    obtain ⟨env, w1⟩ := p
    rw [hq] at hp
    obtain ⟨w2, hk, hl⟩ := Lock_ran fuel w1 hp.2
    simp only [hk, Option.some_bind]
    have hu := regexes_lookedUp_ran c (args.path "id") w2.db.regexes
      (fun x => c.sqlEq (args.path "id") x.Id && x.Dc == env.DcSysName
        && x.Env == env.SysName) w2
    cases hv : Regexes.lookedUp (args.path "id") (gormFind c w2.db.regexes
      (fun x => c.sqlEq (args.path "id") x.Id && x.Dc == env.DcSysName
        && x.Env == env.SysName) w2) with
    | error w3 =>
      rw [hv] at hu
      rcases hu with hu | hu
      · exact ⟨w3, rfl, none, Or.inl rfl, by simpa using (hp.1.trans hl).trans hu⟩
      · exact ⟨w3, rfl, some 1, Or.inr rfl, by simpa using (hp.1.trans hl).trans hu⟩
    | ok w3 =>
      rw [hv] at hu
      obtain ⟨w4, h4, hr⟩ := regexes_deleteAndReply_ran c fuel
        { Id := (strconv.ParseInt (args.path "id")).1, Regex := "", Dc := env.DcSysName,
          Env := env.SysName, Name := "", Desc := "" } w3 hu.2
      exact ⟨w4, h4, none, Or.inl rfl, by simpa using ((hp.1.trans hl).trans hu.1).trans hr⟩

theorem sls_HandleRequest_finished (c : Collaborators SlsPostedData) (fuel : Nat)
    (args : Args) (w : World) (h : w.config.Portlock.ln ≠ .listening) :
    ∃ w1, Sls.HandleRequest c (fuel + 1) args w = some (none, w1) ∧ Finished w w1 := by
  unfold Sls.HandleRequest
  split
  · split
    · obtain ⟨w1, h1, hf⟩ := sls_GetRequest_finished c fuel args w h
      exact ⟨w1, by simp [h1, returnNil], hf⟩
    · split
      · obtain ⟨w1, h1, hf⟩ := sls_PostRequest_finished c fuel args w h
        exact ⟨w1, by simp [h1, returnNil], hf⟩
      · exact ⟨_, rfl, Finished.of_ReturnError _ w⟩
  · exact ⟨_, rfl, Finished.of_ReturnError _ w⟩

theorem regexes_HandleRequest_finished (c : Collaborators RegexPostedData) (fuel : Nat)
    (args : Args) (w : World) (h : w.config.Portlock.ln ≠ .listening) :
    ∃ w1, Regexes.HandleRequest c (fuel + 1) args w = some (none, w1) ∧ Finished w w1 := by
  unfold Regexes.HandleRequest
  split
  · split
    · obtain ⟨w1, h1, hf⟩ := regexes_GetRequest_finished c fuel args w h
      exact ⟨w1, by simp [h1, returnNil], hf⟩
    · split
      · obtain ⟨w1, h1, hf⟩ := regexes_PostRequest_finished c fuel args w h
        exact ⟨w1, by simp [h1, returnNil], hf⟩
      · split
        · obtain ⟨w1, h1, hf⟩ := regexes_PutRequest_finished c fuel args w h
          exact ⟨w1, by simp [h1, returnNil], hf⟩
        · split
          · obtain ⟨w1, h1, hf⟩ := regexes_DeleteRequest_finished c fuel args w h
            exact ⟨w1, by simp [h1, returnNil], hf⟩
          · exact ⟨_, rfl, Finished.of_ReturnError _ w⟩
  · exact ⟨_, rfl, Finished.of_ReturnError _ w⟩

theorem Finished.start {config : Config} {db : Store} {w1 : World}
    (h : Finished (World.start config db) w1) :
    replies w1.log = 1 ∧ lockPerCall w1.log ∧ w1.response ≠ none := by
  obtain ⟨s1, hs1, es, hl, hr, hs, hw⟩ := h
  have hlog : w1.log = es := by simpa [World.start] using hl
  refine ⟨by rw [hlog, hr], ?_, ?_⟩
  · rw [hlog]
    rcases hs1 with rfl | rfl
    · exact Or.inl hs
    · exact Or.inr hs
  · have := lastWrite_isSome (World.start config db).response es (by omega)
    rw [← hw] at this
    intro hn
    simp [hn] at this

theorem preamble_admits {PD : Type} (c : Collaborators PD) (args : Args) (env : Env)
    (w : World) (h : Admits c args env) :
    ∃ w1, preamble c args w = .ok (env, w1) ∧ w1.db = w.db ∧ w1.calls = w.calls ∧
      w1.response = w.response ∧ w1.config.Portlock = w.config.Portlock := by
  obtain ⟨⟨e, rest, h0, h1⟩, hp, h2, h3, h4, h5⟩ := h
  simp [preamble, GetAllowedEnv, NewDB, InitDB, h0, h1, hp, h2, h3, h4, h5, World.emit,
    SetDBPath, Config.SetDBPath, Config.DBPath]

theorem String.length_pos_of_ne_empty (s : String) (h : s ≠ "") : s.length > 0 := by
  rcases s with ⟨data⟩
  cases data with
  | nil => exact absurd rfl h
  | cons c cs => simp [String.length]

theorem gormFind_empty {PD α : Type} (c : Collaborators PD) (table : List α) (cond : α → Bool)
    (w : World) (hf : ∀ t, c.fault w.calls ≠ some (.other t))
    (he : table.filter cond = []) :
    ∃ err, gormFind c table cond w = ([], err, w.storeCall .Find) ∧
      (err = none ∨ err = some .recordNotFound) ∧
      (c.fault w.calls = none → c.emptyFindIsNotFound = true → err = some .recordNotFound) := by
  unfold gormFind
  rw [he]
  cases hc : c.fault w.calls with
  | some e =>
    cases e with
    | recordNotFound => exact ⟨_, rfl, Or.inr rfl, fun h => by simp at h⟩
    | other t => exact absurd hc (hf t)
  | none =>
    cases hn : c.emptyFindIsNotFound with
    | true => exact ⟨_, by simp, Or.inr rfl, fun _ _ => rfl⟩
    | false => exact ⟨_, by simp, Or.inl rfl, fun _ h => by simp at h⟩

theorem permissive_admits {PD : Type} (posted : PD) (verb id : String) :
    Admits (permissive posted) (request verb id) { DcSysName := "dc1", SysName := "env1" } :=
  ⟨⟨"1", [], rfl, rfl⟩, by simp [request, Args.path, List.lookup], rfl, rfl, rfl, rfl⟩

theorem jsonArray_nil : jsonArray [] = "[]" := by
  decide

/-! ## The claims -/

/-- C1: replace-children with the keys `["A.b","C","","D.e"]` for the parent `p`, on an
empty store and with no store failure, creates four children, not three: the empty key
is not skipped, it gives the child `(p, "", "")`, because `strings.Split` of an empty
string has one piece and the `case 0: continue` of the handler is never taken. -/
theorem C1_empty_key_creates_a_child (p : Int) :
    ((Sls.PostRequest (permissive ⟨["A.b", "C", "", "D.e"], p⟩) 1 (request "POST" "")
        (World.start mainConfig emptyStore)).map fun r => children r.2.db) =
      some [(p, "A", "b"), (p, "C", ""), (p, "", ""), (p, "D", "e")] := by
  rfl

/-- C2: a key with two dots is not split at its first dot: `"a.b.c"` has three pieces,
no case of the `switch` applies, and the child created for the parent `p` has an empty
formula and an empty state file. -/
theorem C2_key_with_two_dots_gives_empty_formula (p : Int) :
    Sls.PostRequest.regexmap p "a.b.c" =
        some { Id := 0, RegexId := p, Formula := "", StateFile := "" } ∧
      ((Sls.PostRequest (permissive ⟨["a.b.c"], p⟩) 1 (request "POST" "")
          (World.start mainConfig emptyStore)).map fun r => children r.2.db) =
        some [(p, "", "")] := by
  exact ⟨rfl, rfl⟩

/-- C3: `PutRequest` and `DeleteRequest` of the regexes plugin, when their `Find` reports
`RecordNotFound`, write the "not found" reply and return with the lock still held: the
log ends with the acquisition, the store call and the reply, without a release. -/
theorem C3_not_found_returns_with_the_lock_held :
    ((Regexes.PutRequest (permissive ⟨"desc", 5, "name", "a.*"⟩) 1 (request "PUT" "")
        (World.start mainConfig emptyStore)).map
          fun r => (r.2.held, r.2.response, r.2.log.drop 8)) =
      some (true, some ⟨0, "", .ERROR, "Regex Id:5 not found"⟩,
        [.lock, .store .Find, .reply ⟨0, "", .ERROR, "Regex Id:5 not found"⟩]) ∧
    ((Regexes.DeleteRequest (permissive ⟨"", 0, "", ""⟩) 1 (request "DELETE" "5")
        (World.start mainConfig emptyStore)).map
          fun r => (r.2.held, r.2.response, r.2.log.drop 8)) =
      some (true, some ⟨0, "", .ERROR, "Regex Id:5 not found"⟩,
        [.lock, .store .Find, .reply ⟨0, "", .ERROR, "Regex Id:5 not found"⟩]) := by
  decide

/-- C4: `DeleteRequest` for the environment `(dc1, env1)` with the `id` 5 of a regex that
belongs to `(dc2, env2)`, over a store whose `Find` reports no error when no row matches:
the `Find` by id and scope finds nothing, the handler goes on all the same to
`db.Delete(&regex)`, which deletes by identifier alone, and the record of the other
environment is gone; the reply is a success, not "not found". -/
theorem C4_delete_outside_scope_removes_the_record :
    ((Regexes.DeleteRequest (silent ⟨"", 0, "", ""⟩) 1 (request "DELETE" "5")
        (World.start mainConfig foreignStore)).map
          fun r => (r.2.db, r.2.response.map fun x => (x.Status, x.Message))) =
      some (emptyStore, some (.SUCCESS, "")) := by
  decide

/-- Over a store that reports `RecordNotFound` for a `Find` without rows and does not
fail, `DeleteRequest` with an `id` that the store matches with no record of the
environment replies "Regex Id:<id> not found" and leaves the store as it was. -/
theorem DeleteRequest_over_a_reporting_store (c : Collaborators RegexPostedData) (fuel : Nat)
    (args : Args) (config : Config) (db : Store) (env : Env)
    (hfree : config.Portlock.ln ≠ .listening)
    (hadm : Admits c args env)
    (hnf : c.emptyFindIsNotFound = true)
    (hfault : c.fault 0 = none)
    (hrows : ∀ x ∈ db.regexes,
      ¬(c.sqlEq (args.path "id") x.Id = true ∧ x.Dc = env.DcSysName ∧ x.Env = env.SysName)) :
    ∃ w1, Regexes.DeleteRequest c (fuel + 1) args (World.start config db) = some (none, w1) ∧
      w1.response = some ⟨0, "", .ERROR, "Regex Id:" ++ args.path "id" ++ " not found"⟩ ∧
      w1.db = db := by
  obtain ⟨w1, hq, hdb, hcalls, _, hlock⟩ :=
    preamble_admits c args env ((World.start config db).emit (.enter .DeleteRequest)) hadm
  have hfree1 : w1.config.Portlock.ln ≠ .listening := by rw [hlock]; exact hfree
  obtain ⟨w2, hk, _, hdb2, hcalls2, _, _⟩ := Lock_free fuel w1 hfree1
  have hdb2' : w2.db = db := by rw [hdb2, hdb]; rfl
  have hc2 : w2.calls = 0 := by rw [hcalls2, hcalls]; rfl
  have hempty : w2.db.regexes.filter (fun x => c.sqlEq (args.path "id") x.Id &&
      x.Dc == env.DcSysName && x.Env == env.SysName) = [] := by
    rw [List.filter_eq_nil_iff, hdb2']
    intro x hx hcond
    simp only [Bool.and_eq_true, beq_iff_eq] at hcond
    exact hrows x hx ⟨hcond.1.1, hcond.1.2, hcond.2⟩
  obtain ⟨err, hfind, _, herr⟩ := gormFind_empty c w2.db.regexes _ w2
    (by rw [hc2, hfault]; simp) hempty
  rw [herr (by rw [hc2]; exact hfault) hnf] at hfind
  refine ⟨ReturnError ("Regex Id:" ++ args.path "id" ++ " not found") (w2.storeCall .Find),
    ?_, rfl, ?_⟩
  · simp only [Regexes.DeleteRequest, hq, hk, Option.some_bind]
    rw [hfind]
    simp [Regexes.lookedUp, DBError.RecordNotFound, returnNil]
  · simpa [ReturnError, World.storeCall] using hdb2'

/-- C5: in each of the six handlers a request without an `env_id` value returns at once
with the failure reply "'env_id' must be set": the log holds the entry of the handler and
that reply and nothing else (no authorization call, no store path set, no store opened,
no lock, no store call), and the configuration and the store are as before. -/
theorem C5_missing_env_id_touches_nothing (cs : Collaborators SlsPostedData)
    (cr : Collaborators RegexPostedData) (fuel : Nat) (args : Args) (config : Config)
    (db : Store) (h : args.query "env_id" = []) :
    Sls.GetRequest cs fuel args (World.start config db) =
        some (none, World.answered config db
          [.enter .GetRequest, .reply ⟨0, "", .ERROR, "'env_id' must be set"⟩]
          ⟨0, "", .ERROR, "'env_id' must be set"⟩) ∧
      Sls.PostRequest cs fuel args (World.start config db) =
        some (none, World.answered config db
          [.enter .PostRequest, .reply ⟨0, "", .ERROR, "'env_id' must be set"⟩]
          ⟨0, "", .ERROR, "'env_id' must be set"⟩) ∧
      Regexes.GetRequest cr fuel args (World.start config db) =
        some (none, World.answered config db
          [.enter .GetRequest, .reply ⟨0, "", .ERROR, "'env_id' must be set"⟩]
          ⟨0, "", .ERROR, "'env_id' must be set"⟩) ∧
      Regexes.PostRequest cr fuel args (World.start config db) =
        some (none, World.answered config db
          [.enter .PostRequest, .reply ⟨0, "", .ERROR, "'env_id' must be set"⟩]
          ⟨0, "", .ERROR, "'env_id' must be set"⟩) ∧
      Regexes.PutRequest cr fuel args (World.start config db) =
        some (none, World.answered config db
          [.enter .PutRequest, .reply ⟨0, "", .ERROR, "'env_id' must be set"⟩]
          ⟨0, "", .ERROR, "'env_id' must be set"⟩) ∧
      Regexes.DeleteRequest cr fuel args (World.start config db) =
        some (none, World.answered config db
          [.enter .DeleteRequest, .reply ⟨0, "", .ERROR, "'env_id' must be set"⟩]
          ⟨0, "", .ERROR, "'env_id' must be set"⟩) := by
  refine ⟨?_, ?_, ?_, ?_, ?_, ?_⟩ <;>
    simp [Sls.GetRequest, Sls.PostRequest, Regexes.GetRequest, Regexes.PostRequest,
      Regexes.PutRequest, Regexes.DeleteRequest, preamble, h, returnNil, ReturnError,
      World.emit, World.start, World.answered]

/-- C5 at a concrete request: a GET without `env_id` to the sls-map plugin. -/
theorem C5_missing_env_id_touches_nothing_witness :
    Sls.GetRequest (permissive ⟨[], 0⟩) 0 (bareRequest "GET") (World.start mainConfig emptyStore) =
      some (none, World.answered mainConfig emptyStore
        [.enter .GetRequest, .reply ⟨0, "", .ERROR, "'env_id' must be set"⟩]
        ⟨0, "", .ERROR, "'env_id' must be set"⟩) :=
  (C5_missing_env_id_touches_nothing (permissive ⟨[], 0⟩) (permissive ⟨"", 0, "", ""⟩) 0
    (bareRequest "GET") mainConfig emptyStore rfl).1

/-- C6: `HandleRequest` with a verb that is not empty and is not one the plugin handles
(GET and POST for the sls-map plugin; GET, POST, PUT and DELETE for the regexes plugin)
returns with a failure reply whose message ends with the verb; the log holds that reply
only, so no handler was entered. -/
theorem C6_unsupported_verb_is_named (cs : Collaborators SlsPostedData)
    (cr : Collaborators RegexPostedData) (fuel : Nat) (args : Args) (config : Config)
    (db : Store) (hne : args.QueryType ≠ "") (hget : args.QueryType ≠ "GET")
    (hpost : args.QueryType ≠ "POST") :
    Sls.HandleRequest cs fuel args (World.start config db) =
        some (none, World.answered config db
          [.reply ⟨0, "", .ERROR,
            "Internal error: Invalid HTTP request type for this plugin " ++ args.QueryType⟩]
          ⟨0, "", .ERROR,
            "Internal error: Invalid HTTP request type for this plugin " ++ args.QueryType⟩) ∧
      (args.QueryType ≠ "PUT" → args.QueryType ≠ "DELETE" →
        Regexes.HandleRequest cr fuel args (World.start config db) =
          some (none, World.answered config db
            [.reply ⟨0, "", .ERROR,
              "Internal error: Invalid HTTP request type for this plugin " ++ args.QueryType⟩]
            ⟨0, "", .ERROR,
              "Internal error: Invalid HTTP request type for this plugin " ++ args.QueryType⟩)) := by
  have hlen := String.length_pos_of_ne_empty args.QueryType hne
  refine ⟨?_, fun hput hdel => ?_⟩
  · simp [Sls.HandleRequest, hlen, hget, hpost, returnNil, ReturnError, World.start,
      World.answered]
  · simp [Regexes.HandleRequest, hlen, hget, hpost, hput, hdel, returnNil, ReturnError,
      World.start, World.answered]

/-- C6 at a concrete request: the verb PATCH, in both plugins. -/
theorem C6_unsupported_verb_is_named_witness :
    Sls.HandleRequest (permissive ⟨[], 0⟩) 0 (request "PATCH" "")
        (World.start mainConfig emptyStore) =
      some (none, World.answered mainConfig emptyStore
        [.reply ⟨0, "", .ERROR,
          "Internal error: Invalid HTTP request type for this plugin " ++ "PATCH"⟩]
        ⟨0, "", .ERROR, "Internal error: Invalid HTTP request type for this plugin " ++ "PATCH"⟩) ∧
    Regexes.HandleRequest (permissive ⟨"", 0, "", ""⟩) 0 (request "PATCH" "")
        (World.start mainConfig emptyStore) =
      some (none, World.answered mainConfig emptyStore
        [.reply ⟨0, "", .ERROR,
          "Internal error: Invalid HTTP request type for this plugin " ++ "PATCH"⟩]
        ⟨0, "", .ERROR, "Internal error: Invalid HTTP request type for this plugin " ++ "PATCH"⟩) :=
  ⟨(C6_unsupported_verb_is_named (permissive ⟨[], 0⟩) (permissive ⟨"", 0, "", ""⟩) 0
      (request "PATCH" "") mainConfig emptyStore (by decide) (by decide) (by decide)).1,
    (C6_unsupported_verb_is_named (permissive ⟨[], 0⟩) (permissive ⟨"", 0, "", ""⟩) 0
      (request "PATCH" "") mainConfig emptyStore (by decide) (by decide) (by decide)).2
      (by decide) (by decide)⟩

/-- C7: `HandleRequest` of either plugin, entered with the lock free, returns for every
request and every behaviour of the collaborators and of the store, its result is `nil`,
and the response has been written exactly once. -/
theorem C7_HandleRequest_writes_one_reply (cs : Collaborators SlsPostedData)
    (cr : Collaborators RegexPostedData) (fuel : Nat) (args : Args) (config : Config)
    (db : Store) (hfree : config.Portlock.ln ≠ .listening) :
    (∃ w1, Sls.HandleRequest cs (fuel + 1) args (World.start config db) = some (none, w1) ∧
        replies w1.log = 1 ∧ w1.response ≠ none) ∧
      (∃ w1, Regexes.HandleRequest cr (fuel + 1) args (World.start config db) =
          some (none, w1) ∧
        replies w1.log = 1 ∧ w1.response ≠ none) := by
  obtain ⟨w1, h1, hf1⟩ := sls_HandleRequest_finished cs fuel args (World.start config db) hfree
  obtain ⟨w2, h2, hf2⟩ :=
    regexes_HandleRequest_finished cr fuel args (World.start config db) hfree
  exact ⟨⟨w1, h1, hf1.start.1, hf1.start.2.2⟩, ⟨w2, h2, hf2.start.1, hf2.start.2.2⟩⟩

/-- C7 at a concrete request: a PUT for a regex that is not in the store. -/
theorem C7_HandleRequest_writes_one_reply_witness :
    (∃ w1, Sls.HandleRequest (permissive ⟨["A.b"], 7⟩) 1 (request "PUT" "")
          (World.start mainConfig emptyStore) = some (none, w1) ∧
        replies w1.log = 1 ∧ w1.response ≠ none) ∧
      (∃ w1, Regexes.HandleRequest (permissive ⟨"desc", 5, "name", "a.*"⟩) 1 (request "PUT" "")
          (World.start mainConfig emptyStore) = some (none, w1) ∧
        replies w1.log = 1 ∧ w1.response ≠ none) :=
  C7_HandleRequest_writes_one_reply (permissive ⟨["A.b"], 7⟩)
    (permissive ⟨"desc", 5, "name", "a.*"⟩) 0 (request "PUT" "") mainConfig emptyStore
    (by decide)

theorem sls_found_empty (c : Collaborators SlsPostedData) (err : Option DBError)
    (w : World) (h : err = none ∨ err = some .recordNotFound) :
    ∃ w1, Sls.GetRequest.found c ([], err, w) = some (none, w1) ∧
      w1.response = some ⟨0, "[]", .SUCCESS, ""⟩ := by
  rcases h with rfl | rfl <;>
    simp [Sls.GetRequest.found, DBError.RecordNotFound, respond, respondWith, jsonMarshal,
      jsonMarshalReply, writeReply, returnNil, jsonArray_nil]

theorem regexes_found_empty (c : Collaborators RegexPostedData) (err : Option DBError)
    (w : World) (h : err = none ∨ err = some .recordNotFound) :
    ∃ w1, Regexes.GetRequest.found c ([], err, w) = some (none, w1) ∧
      w1.response = some ⟨0, "[]", .SUCCESS, ""⟩ := by
  rcases h with rfl | rfl <;>
    simp [Regexes.GetRequest.found, DBError.RecordNotFound, respond, respondWith, jsonMarshal,
      jsonMarshalReply, writeReply, returnNil, jsonArray_nil]

/-- C8: `GetRequest` of either plugin, for a request that passes the opening statements,
entered with the lock free: when no row of the table matches the query (for the sls-map
plugin every row without `regex_id`, the rows of that parent with it; for the regexes
plugin the rows of the environment) and the `Find` either reports nothing or reports
`RecordNotFound`, the handler returns and the reply is `Reply{0, "[]", SUCCESS, ""}`. -/
theorem C8_get_without_rows_is_an_empty_success (cs : Collaborators SlsPostedData)
    (cr : Collaborators RegexPostedData) (fuel : Nat) (args : Args) (config : Config)
    (db : Store) (env : Env) (hfree : config.Portlock.ln ≠ .listening) :
    (Admits cs args env → (∀ t, cs.fault 0 ≠ some (.other t)) →
        (match args.query "regex_id" with
          | [] => db.regex_sls_maps = []
          | regex_id :: _ => ∀ m ∈ db.regex_sls_maps, cs.sqlEq regex_id m.RegexId = false) →
        ∃ w1, Sls.GetRequest cs (fuel + 1) args (World.start config db) = some (none, w1) ∧
          w1.response = some ⟨0, "[]", .SUCCESS, ""⟩) ∧
      (Admits cr args env → (∀ t, cr.fault 0 ≠ some (.other t)) →
        (∀ x ∈ db.regexes, (x.Dc, x.Env) ≠ (env.DcSysName, env.SysName)) →
        ∃ w1, Regexes.GetRequest cr (fuel + 1) args (World.start config db) = some (none, w1) ∧
          w1.response = some ⟨0, "[]", .SUCCESS, ""⟩) := by
  constructor
  · intro hadm hfault hrows
    obtain ⟨w1, hq, hdb, hcalls, _, hlock⟩ :=
      preamble_admits cs args env ((World.start config db).emit (.enter .GetRequest)) hadm
    have hfree1 : w1.config.Portlock.ln ≠ .listening := by rw [hlock]; exact hfree
    obtain ⟨w2, hk, _, hdb2, hcalls2, _, _⟩ := Lock_free fuel w1 hfree1
    have hdb2' : w2.db = db := by rw [hdb2, hdb]; rfl
    have hc2 : w2.calls = 0 := by rw [hcalls2, hcalls]; rfl
    simp only [Sls.GetRequest, hq]
    cases hid : args.query "regex_id" with
    | nil =>
      rw [hid] at hrows
      simp only [hk, Option.some_bind]
      obtain ⟨err, hfind, herr, _⟩ := gormFind_empty cs w2.db.regex_sls_maps (fun _ => true) w2
        (by rw [hc2]; exact hfault) (by rw [hdb2', hrows]; rfl)
      rw [hfind]
      exact sls_found_empty cs err _ herr
    | cons regex_id rest =>
      rw [hid] at hrows
      simp only [hk, Option.some_bind]
      obtain ⟨err, hfind, herr, _⟩ := gormFind_empty cs w2.db.regex_sls_maps
        (fun m => cs.sqlEq regex_id m.RegexId) w2 (by rw [hc2]; exact hfault)
        (by
          rw [List.filter_eq_nil_iff, hdb2']
          intro m hm
          simp [hrows m hm])
      rw [hfind]
      exact sls_found_empty cs err _ herr
  · intro hadm hfault hrows
    obtain ⟨w1, hq, hdb, hcalls, _, hlock⟩ :=
      preamble_admits cr args env ((World.start config db).emit (.enter .GetRequest)) hadm
    have hfree1 : w1.config.Portlock.ln ≠ .listening := by rw [hlock]; exact hfree
    obtain ⟨w2, hk, _, hdb2, hcalls2, _, _⟩ := Lock_free fuel w1 hfree1
    have hdb2' : w2.db = db := by rw [hdb2, hdb]; rfl
    have hc2 : w2.calls = 0 := by rw [hcalls2, hcalls]; rfl
    simp only [Regexes.GetRequest, hq, hk, Option.some_bind]
    obtain ⟨err, hfind, herr, _⟩ := gormFind_empty cr w2.db.regexes
      (fun x => x.Dc == env.DcSysName && x.Env == env.SysName) w2
      (by rw [hc2]; exact hfault)
      (by
        rw [List.filter_eq_nil_iff, hdb2']
        intro x hx hcond
        simp only [Bool.and_eq_true, beq_iff_eq] at hcond
        exact hrows x hx (by rw [hcond.1, hcond.2]))
    rw [hfind]
    exact regexes_found_empty cr err _ herr

/-- C8 at a concrete request: a GET for `(dc1, env1)` on a store whose only regex
belongs to `(dc2, env2)` and which has no sls map. -/
theorem C8_get_without_rows_is_an_empty_success_witness :
    (∃ w1, Sls.GetRequest (permissive ⟨[], 0⟩) 1 (request "GET" "")
          (World.start mainConfig foreignStore) = some (none, w1) ∧
        w1.response = some ⟨0, "[]", .SUCCESS, ""⟩) ∧
      (∃ w1, Regexes.GetRequest (permissive ⟨"", 0, "", ""⟩) 1 (request "GET" "")
          (World.start mainConfig foreignStore) = some (none, w1) ∧
        w1.response = some ⟨0, "[]", .SUCCESS, ""⟩) :=
  ⟨(C8_get_without_rows_is_an_empty_success (permissive ⟨[], 0⟩) (permissive ⟨"", 0, "", ""⟩) 0
      (request "GET" "") mainConfig foreignStore { DcSysName := "dc1", SysName := "env1" }
      (by decide)).1 (permissive_admits _ _ _) (by intro t; simp [permissive]) rfl,
    (C8_get_without_rows_is_an_empty_success (permissive ⟨[], 0⟩) (permissive ⟨"", 0, "", ""⟩) 0
      (request "GET" "") mainConfig foreignStore { DcSysName := "dc1", SysName := "env1" }
      (by decide)).2 (permissive_admits _ _ _) (by intro t; simp [permissive]) (by decide)⟩

/-- C9: each of the six handlers, entered with the lock free, returns with a log in
which every store call (Find, Create, Save, Delete) is made with the lock held and every
lock interval holds exactly one store call, for every request and every behaviour of
the collaborators and of the store. -/
theorem C9_one_store_call_per_lock_interval (cs : Collaborators SlsPostedData)
    (cr : Collaborators RegexPostedData) (fuel : Nat) (args : Args) (config : Config)
    (db : Store) (hfree : config.Portlock.ln ≠ .listening) :
    (∃ w1, Sls.GetRequest cs (fuel + 1) args (World.start config db) = some (none, w1) ∧
        lockPerCall w1.log) ∧
      (∃ w1, Sls.PostRequest cs (fuel + 1) args (World.start config db) = some (none, w1) ∧
        lockPerCall w1.log) ∧
      (∃ w1, Regexes.GetRequest cr (fuel + 1) args (World.start config db) = some (none, w1) ∧
        lockPerCall w1.log) ∧
      (∃ w1, Regexes.PostRequest cr (fuel + 1) args (World.start config db) = some (none, w1) ∧
        lockPerCall w1.log) ∧
      (∃ w1, Regexes.PutRequest cr (fuel + 1) args (World.start config db) = some (none, w1) ∧
        lockPerCall w1.log) ∧
      (∃ w1, Regexes.DeleteRequest cr (fuel + 1) args (World.start config db) =
          some (none, w1) ∧
        lockPerCall w1.log) := by
  obtain ⟨w1, h1, hf1⟩ := sls_GetRequest_finished cs fuel args (World.start config db) hfree
  obtain ⟨w2, h2, hf2⟩ := sls_PostRequest_finished cs fuel args (World.start config db) hfree
  obtain ⟨w3, h3, hf3⟩ := regexes_GetRequest_finished cr fuel args (World.start config db) hfree
  obtain ⟨w4, h4, hf4⟩ := regexes_PostRequest_finished cr fuel args (World.start config db) hfree
  obtain ⟨w5, h5, hf5⟩ := regexes_PutRequest_finished cr fuel args (World.start config db) hfree
  obtain ⟨w6, h6, hf6⟩ :=
    regexes_DeleteRequest_finished cr fuel args (World.start config db) hfree
  exact ⟨⟨w1, h1, hf1.start.2.1⟩, ⟨w2, h2, hf2.start.2.1⟩, ⟨w3, h3, hf3.start.2.1⟩,
    ⟨w4, h4, hf4.start.2.1⟩, ⟨w5, h5, hf5.start.2.1⟩, ⟨w6, h6, hf6.start.2.1⟩⟩

/-- C9 at a concrete request: replace-children with two keys; the delete and each of
the two inserts sit in a lock interval of their own. -/
theorem C9_one_store_call_per_lock_interval_witness :
    (∃ w1, Sls.PostRequest (permissive ⟨["A.b", "C"], 7⟩) 1 (request "POST" "")
        (World.start mainConfig emptyStore) = some (none, w1) ∧ lockPerCall w1.log) ∧
      ((Sls.PostRequest (permissive ⟨["A.b", "C"], 7⟩) 1 (request "POST" "")
        (World.start mainConfig emptyStore)).map fun r => (r.2.log.drop 8).take 9) =
        some [.lock, .store .Delete, .unlock, .lock, .store .Create, .unlock,
          .lock, .store .Create, .unlock] :=
  ⟨(C9_one_store_call_per_lock_interval (permissive ⟨["A.b", "C"], 7⟩)
      (permissive ⟨"", 0, "", ""⟩) 0 (request "POST" "") mainConfig emptyStore
      (by decide)).2.1, by decide⟩

/-- C10: in each of the six handlers, when `GetAllowedEnv` signals failure after writing
the reply `r`, the handler returns at once: the response is `r`, the log holds the entry
of the handler, the authorization call and the collaborator's reply and nothing else (no
store path set, no store opened, no lock, no store call), and the configuration and the
store are as before. -/
theorem C10_refused_environment_stops_the_handler (cs : Collaborators SlsPostedData)
    (cr : Collaborators RegexPostedData) (fuel : Nat) (args : Args) (config : Config)
    (db : Store) (e : String) (rest : List String) (r : Reply)
    (henv : args.query "env_id" = e :: rest)
    (hs : cs.GetAllowedEnv args e = .denied r) (hr : cr.GetAllowedEnv args e = .denied r) :
    Sls.GetRequest cs fuel args (World.start config db) =
        some (none, World.answered config db
          [.enter .GetRequest, .authorize e, .collaboratorReply r] r) ∧
      Sls.PostRequest cs fuel args (World.start config db) =
        some (none, World.answered config db
          [.enter .PostRequest, .authorize e, .collaboratorReply r] r) ∧
      Regexes.GetRequest cr fuel args (World.start config db) =
        some (none, World.answered config db
          [.enter .GetRequest, .authorize e, .collaboratorReply r] r) ∧
      Regexes.PostRequest cr fuel args (World.start config db) =
        some (none, World.answered config db
          [.enter .PostRequest, .authorize e, .collaboratorReply r] r) ∧
      Regexes.PutRequest cr fuel args (World.start config db) =
        some (none, World.answered config db
          [.enter .PutRequest, .authorize e, .collaboratorReply r] r) ∧
      Regexes.DeleteRequest cr fuel args (World.start config db) =
        some (none, World.answered config db
          [.enter .DeleteRequest, .authorize e, .collaboratorReply r] r) := by
  refine ⟨?_, ?_, ?_, ?_, ?_, ?_⟩ <;>
    simp [Sls.GetRequest, Sls.PostRequest, Regexes.GetRequest, Regexes.PostRequest,
      Regexes.PutRequest, Regexes.DeleteRequest, preamble, GetAllowedEnv, henv, hs, hr,
      returnNil, collaboratorWrote, World.emit, World.start, World.answered]

/-- C10 at a concrete request: a DELETE that the collaborator refuses. -/
theorem C10_refused_environment_stops_the_handler_witness :
    Regexes.DeleteRequest (refusing ⟨"", 0, "", ""⟩ refusal) 0 (request "DELETE" "5")
        (World.start mainConfig foreignStore) =
      some (none, World.answered mainConfig foreignStore
        [.enter .DeleteRequest, .authorize "1", .collaboratorReply refusal] refusal) :=
  (C10_refused_environment_stops_the_handler (refusing ⟨[], 0⟩ refusal)
    (refusing ⟨"", 0, "", ""⟩ refusal) 0 (request "DELETE" "5") mainConfig foreignStore
    "1" [] refusal rfl rfl rfl).2.2.2.2.2

theorem undecodable_admits {PD : Type} (posted : PD) (verb id : String) :
    Admits (undecodable posted) (request verb id) { DcSysName := "dc1", SysName := "env1" } :=
  ⟨⟨"1", [], rfl, rfl⟩, by simp [request, Args.path, List.lookup], rfl, rfl, rfl, rfl⟩

theorem decodeError_contains (postData err : String) :
    ∃ tail, decodeError postData err = "Error decoding the POST data" ++ tail := by
  refine ⟨" (" ++ postData ++ "). " ++ "Error decoding JSON ('" ++ err ++ "').", ?_⟩
  have h : "Error decoding the POST data (" = "Error decoding the POST data" ++ " (" := by decide
  simp only [decodeError, h, String.append_assoc]

theorem rejected_body {PD : Type} (c : Collaborators PD) (args : Args) (env : Env)
    (config : Config) (db : Store) (hd : Handler) (err : String) (h : Admits c args env) :
    ∃ w, preamble c args ((World.start config db).emit (.enter hd)) = .ok (env, w) ∧
      (ReturnError (decodeError args.PostData err) w).response =
        some ⟨0, "", .ERROR, decodeError args.PostData err⟩ ∧
      (ReturnError (decodeError args.PostData err) w).db = db ∧
      (ReturnError (decodeError args.PostData err) w).calls = 0 := by
  obtain ⟨w, hq, hdb, hcalls, _, _⟩ :=
    preamble_admits c args env ((World.start config db).emit (.enter hd)) h
  exact ⟨w, hq, rfl, by simpa [ReturnError] using hdb, by simpa [ReturnError] using hcalls⟩

/-- C11: `PostRequest` of the sls-map plugin and `PostRequest` and `PutRequest` of the
regexes plugin, for a request that passes the opening statements and whose body
`json.Unmarshal` rejects: the handler returns, the reply is a failure whose message
starts with "Error decoding the POST data", no store call has been made and the store
is as it was. -/
theorem C11_undecodable_body_changes_nothing (cs : Collaborators SlsPostedData)
    (cr : Collaborators RegexPostedData) (fuel : Nat) (args : Args) (config : Config)
    (db : Store) (env : Env) (errS errR : String)
    (has : Admits cs args env) (har : Admits cr args env)
    (hds : cs.jsonUnmarshal args.PostData = .error errS)
    (hdr : cr.jsonUnmarshal args.PostData = .error errR) :
    (∃ w1, Sls.PostRequest cs fuel args (World.start config db) = some (none, w1) ∧
        w1.response = some ⟨0, "", .ERROR, decodeError args.PostData errS⟩ ∧
        w1.db = db ∧ w1.calls = 0) ∧
      (∃ w1, Regexes.PostRequest cr fuel args (World.start config db) = some (none, w1) ∧
        w1.response = some ⟨0, "", .ERROR, decodeError args.PostData errR⟩ ∧
        w1.db = db ∧ w1.calls = 0) ∧
      (∃ w1, Regexes.PutRequest cr fuel args (World.start config db) = some (none, w1) ∧
        w1.response = some ⟨0, "", .ERROR, decodeError args.PostData errR⟩ ∧
        w1.db = db ∧ w1.calls = 0) ∧
      (∃ tail, decodeError args.PostData errS = "Error decoding the POST data" ++ tail) ∧
      (∃ tail, decodeError args.PostData errR = "Error decoding the POST data" ++ tail) := by
  refine ⟨?_, ?_, ?_, decodeError_contains _ _, decodeError_contains _ _⟩
  · obtain ⟨w, hq, h1, h2, h3⟩ := rejected_body cs args env config db .PostRequest errS has
    exact ⟨_, by simp only [Sls.PostRequest, hq, hds, returnNil], h1, h2, h3⟩
  · obtain ⟨w, hq, h1, h2, h3⟩ := rejected_body cr args env config db .PostRequest errR har
    exact ⟨_, by simp only [Regexes.PostRequest, hq, hdr, returnNil], h1, h2, h3⟩
  · obtain ⟨w, hq, h1, h2, h3⟩ := rejected_body cr args env config db .PutRequest errR har
    exact ⟨_, by simp only [Regexes.PutRequest, hq, hdr, returnNil], h1, h2, h3⟩

/-- C11 at a concrete request: a POST and a PUT with a body that does not decode, on a
store that holds a regex. -/
theorem C11_undecodable_body_changes_nothing_witness :
    (∃ w1, Sls.PostRequest (undecodable ⟨[], 0⟩) 0 (request "POST" "")
          (World.start mainConfig foreignStore) = some (none, w1) ∧
        w1.response = some ⟨0, "", .ERROR,
          decodeError (request "POST" "").PostData "unexpected end of JSON input"⟩ ∧
        w1.db = foreignStore ∧ w1.calls = 0) ∧
      (∃ w1, Regexes.PutRequest (undecodable ⟨"", 0, "", ""⟩) 0 (request "POST" "")
          (World.start mainConfig foreignStore) = some (none, w1) ∧
        w1.response = some ⟨0, "", .ERROR,
          decodeError (request "POST" "").PostData "unexpected end of JSON input"⟩ ∧
        w1.db = foreignStore ∧ w1.calls = 0) :=
  ⟨(C11_undecodable_body_changes_nothing (undecodable ⟨[], 0⟩) (undecodable ⟨"", 0, "", ""⟩) 0
      (request "POST" "") mainConfig foreignStore { DcSysName := "dc1", SysName := "env1" }
      "unexpected end of JSON input" "unexpected end of JSON input"
      (undecodable_admits _ _ _) (undecodable_admits _ _ _) rfl rfl).1,
    (C11_undecodable_body_changes_nothing (undecodable ⟨[], 0⟩) (undecodable ⟨"", 0, "", ""⟩) 0
      (request "POST" "") mainConfig foreignStore { DcSysName := "dc1", SysName := "env1" }
      "unexpected end of JSON input" "unexpected end of JSON input"
      (undecodable_admits _ _ _) (undecodable_admits _ _ _) rfl rfl).2.2.1⟩

/-- C12: `PutRequest` for the environment `(dc1, env1)`, over a store whose `Find` reports
no error when no row matches.  With the Id 5 of a regex that belongs to `(dc2, env2)` the
`Find` by id and scope finds nothing, the handler goes on all the same to
`db.Save(&regex)`, which updates by identifier alone: the record of the other environment
is overwritten and now belongs to `(dc1, env1)`.  With the Id 0 a new record is inserted.
Both replies are a success, not "not found". -/
theorem C12_put_unknown_id_writes_the_store :
    ((Regexes.PutRequest (silent ⟨"desc", 5, "name", "a.*"⟩) 1 (request "PUT" "")
        (World.start mainConfig foreignStore)).map
          fun r => (r.2.db.regexes, r.2.response.map fun x => x.Status)) =
      some ([⟨5, "a.*", "dc1", "env1", "name", "desc"⟩], some .SUCCESS) ∧
    ((Regexes.PutRequest (silent ⟨"desc", 0, "name", "a.*"⟩) 1 (request "PUT" "")
        (World.start mainConfig foreignStore)).map
          fun r => (r.2.db.regexes, r.2.response.map fun x => x.Status)) =
      some ([foreignRegex, ⟨6, "a.*", "dc1", "env1", "name", "desc"⟩], some .SUCCESS) := by
  decide

/-- Over a store that reports `RecordNotFound` for a `Find` without rows and does not
fail, `PutRequest` with an Id that no record of the environment has replies
"Regex Id:<id> not found" and leaves the store as it was. -/
theorem PutRequest_over_a_reporting_store (c : Collaborators RegexPostedData) (fuel : Nat)
    (args : Args) (config : Config) (db : Store) (env : Env) (postdata : RegexPostedData)
    (hfree : config.Portlock.ln ≠ .listening)
    (hadm : Admits c args env)
    (hdec : c.jsonUnmarshal args.PostData = .ok postdata)
    (hnf : c.emptyFindIsNotFound = true)
    (hfault : c.fault 0 = none)
    (hrows : ∀ x ∈ db.regexes,
      ¬(x.Id = postdata.Id ∧ x.Dc = env.DcSysName ∧ x.Env = env.SysName)) :
    ∃ w1, Regexes.PutRequest c (fuel + 1) args (World.start config db) = some (none, w1) ∧
      w1.response =
        some ⟨0, "", .ERROR, "Regex Id:" ++ strconv.FormatInt postdata.Id ++ " not found"⟩ ∧
      w1.db = db := by
  obtain ⟨w1, hq, hdb, hcalls, _, hlock⟩ :=
    preamble_admits c args env ((World.start config db).emit (.enter .PutRequest)) hadm
  have hfree1 : w1.config.Portlock.ln ≠ .listening := by rw [hlock]; exact hfree
  obtain ⟨w2, hk, _, hdb2, hcalls2, _, _⟩ := Lock_free fuel w1 hfree1
  have hdb2' : w2.db = db := by rw [hdb2, hdb]; rfl
  have hc2 : w2.calls = 0 := by rw [hcalls2, hcalls]; rfl
  have hempty : w2.db.regexes.filter (fun x => x.Id == postdata.Id &&
      x.Dc == env.DcSysName && x.Env == env.SysName) = [] := by
    rw [List.filter_eq_nil_iff, hdb2']
    intro x hx hcond
    simp only [Bool.and_eq_true, beq_iff_eq] at hcond
    exact hrows x hx ⟨hcond.1.1, hcond.1.2, hcond.2⟩
  obtain ⟨err, hfind, _, herr⟩ := gormFind_empty c w2.db.regexes _ w2
    (by rw [hc2, hfault]; simp) hempty
  rw [herr (by rw [hc2]; exact hfault) hnf] at hfind
  refine ⟨ReturnError ("Regex Id:" ++ strconv.FormatInt postdata.Id ++ " not found")
    (w2.storeCall .Find), ?_, rfl, ?_⟩
  · simp only [Regexes.PutRequest, hq, hdec, hk, Option.some_bind]
    rw [hfind]
    simp [Regexes.lookedUp, DBError.RecordNotFound, returnNil]
  · simpa [ReturnError, World.storeCall] using hdb2'

theorem sound_boot (port : Nat) (taken : Bool) : (Host.boot port taken).Sound port := by
  intro i
  simp [Host.boot, NewPortLock]

theorem Host.step_callLock (h : Host) (i : Nat) :
    h.step (.callLock i) = h ∨
      h.step (.callLock i) = h.set i { (h.peers i) with inLock := true } := by
  by_cases hin : (h.peers i).inLock = true
  · exact Or.inl (by simp [Host.step, hin])
  · exact Or.inr (by simp [Host.step, hin])

theorem Host.step_listen (h : Host) (i : Nat) :
    h.step (.listen i) = h ∨
      (h.bound = none ∧ h.step (.listen i) =
        { bound := some (.peer i)
          peers := (h.set i { Portlock := { (h.peers i).Portlock with ln := .listening }
                              inLock := false
                              entered := true }).peers }) := by
  by_cases hin : (h.peers i).inLock = true
  · cases hb : h.bound with
    | none => exact Or.inr ⟨rfl, by simp [Host.step, hin, hb]⟩
    | some x => exact Or.inl (by simp [Host.step, hin, hb])
  · exact Or.inl (by simp [Host.step, hin])

theorem Host.step_callUnlock (h : Host) (i : Nat) :
    h.step (.callUnlock i) = h ∨
      ((h.peers i).Portlock.ln ≠ .listening ∧
        h.step (.callUnlock i) = h.set i { (h.peers i) with entered := false }) ∨
      ((h.peers i).Portlock.ln = .listening ∧ h.step (.callUnlock i) =
        { bound := if h.bound = some (.peer i) then none else h.bound
          peers := (h.set i { Portlock := { (h.peers i).Portlock with ln := .closed }
                              inLock := false
                              entered := false }).peers }) := by
  by_cases hin : (h.peers i).inLock = true
  · exact Or.inl (by simp [Host.step, hin])
  · cases hl : (h.peers i).Portlock.ln with
    | nil => exact Or.inr (Or.inl ⟨by simp, by simp [Host.step, hin, hl]⟩)
    | closed => exact Or.inr (Or.inl ⟨by simp, by simp [Host.step, hin, hl]⟩)
    | listening => exact Or.inr (Or.inr ⟨rfl, by simp [Host.step, hin, hl]⟩)

theorem sound_step {port : Nat} {h : Host} (hs : h.Sound port) (a : Action) :
    (h.step a).Sound port := by
  intro j
  rcases a with i | i | i
  · rcases Host.step_callLock h i with he | he
    · rw [he]; exact hs j
    · rw [he]
      by_cases hj : j = i
      · subst hj; simpa [Host.set] using hs j
      · simpa [Host.set, hj] using hs j
  · rcases Host.step_listen h i with he | ⟨hb, he⟩
    · rw [he]; exact hs j
    · rw [he]
      by_cases hj : j = i
      · subst hj
        simpa [Host.set] using (hs j).2.2
      · have hno : (h.peers j).Portlock.ln ≠ .listening := by
          intro hl
          have := (hs j).1 hl
          rw [hb] at this
          simp at this
        have h2 := (hs j).2
        simp only [Host.set, hj, if_false]
        exact ⟨fun hl => absurd hl hno, h2⟩
  · rcases Host.step_callUnlock h i with he | ⟨hl, he⟩ | ⟨hl, he⟩
    · rw [he]; exact hs j
    · rw [he]
      by_cases hj : j = i
      · subst hj
        have h0 := hs j
        simp only [Host.set, if_true]
        exact ⟨h0.1, fun hf => by simp at hf, h0.2.2⟩
      · simpa [Host.set, hj] using hs j
    · rw [he]
      by_cases hj : j = i
      · subst hj; simpa [Host.set] using (hs j).2.2
      · have hbi := (hs i).1 hl
        have hnl : (h.peers j).Portlock.ln ≠ .listening := by
          intro hlj
          have := (hs j).1 hlj
          rw [hbi] at this
          simp only [Option.some.injEq, Holder.peer.injEq] at this
          exact hj this.symm
        simp only [Host.set, hj, if_false]
        exact ⟨fun hlj => absurd hlj hnl, (hs j).2⟩

theorem sound_run {port : Nat} (schedule : List Action) {h : Host} (hs : h.Sound port) :
    (h.run schedule).Sound port := by
  induction schedule generalizing h with
  | nil => exact hs
  | cons a rest ih => exact ih (sound_step hs a)

theorem Host.listen_bound (h : Host) (i : Nat) (hb : h.bound ≠ none) (n : Nat) :
    h.run (List.replicate n (.listen i)) = h := by
  induction n with
  | zero => rfl
  | succ n ih =>
    have h1 : h.step (.listen i) = h := by
      rcases Host.step_listen h i with he | ⟨hb0, _⟩
      · exact he
      · exact absurd hb0 hb
    simp only [List.replicate_succ, Host.run, List.foldl_cons, h1]
    exact ih

/-- C13: handler processes in any number, each with the lock of `NewPortLock(port)`,
taking their steps (a call of `Lock`, a pass of its loop, a call of `Unlock`) in any
order, the address free or taken by another program at the start.  In every state
reached: at most one process is between a returned `Lock` and its `Unlock`; such a
process is the holder of the address and its listener is bound on `127.0.0.1:<port>`;
and while the address has a holder, a process inside `Lock` may pass through the loop
any number of times and nothing changes: it is still inside `Lock`. -/
theorem C13_lock_is_exclusive_between_processes (port : Nat) (taken : Bool)
    (schedule : List Action) :
    (∀ i j, (((Host.boot port taken).run schedule).peers i).entered = true →
        (((Host.boot port taken).run schedule).peers j).entered = true → i = j) ∧
      (∀ i, (((Host.boot port taken).run schedule).peers i).entered = true →
        ((Host.boot port taken).run schedule).bound = some (.peer i) ∧
        (((Host.boot port taken).run schedule).peers i).Portlock =
          ⟨"127.0.0.1" ++ ":" ++ toString port, .listening⟩) ∧
      (∀ i n, ((Host.boot port taken).run schedule).bound ≠ none →
        (((Host.boot port taken).run schedule).peers i).inLock = true →
        ((Host.boot port taken).run schedule).run (List.replicate n (.listen i)) =
          (Host.boot port taken).run schedule) := by
  have hs := sound_run schedule (sound_boot port taken)
  refine ⟨fun i j hi hj => ?_, fun i hi => ?_, fun i n hb _ => Host.listen_bound _ i hb n⟩
  · have h1 := (hs i).1 ((hs i).2.1 hi)
    have h2 := (hs j).1 ((hs j).2.1 hj)
    rw [h1] at h2
    simpa using h2
  · refine ⟨(hs i).1 ((hs i).2.1 hi), ?_⟩
    have hl := (hs i).2.1 hi
    have hh := (hs i).2.2
    cases hp : (((Host.boot port taken).run schedule).peers i).Portlock with
    | mk hostport ln =>
      rw [hp] at hl hh
      simp only at hl hh
      rw [hl, hh]

/-- C13 on a concrete schedule: two processes race for the lock; process 1 binds first,
process 0 keeps failing until process 1 unlocks, then binds. -/
theorem C13_lock_is_exclusive_between_processes_witness :
    (∀ i j,
        (((Host.boot 49993 false).run [.callLock 0, .callLock 1, .listen 1, .listen 0,
          .callUnlock 1, .listen 0]).peers i).entered = true →
        (((Host.boot 49993 false).run [.callLock 0, .callLock 1, .listen 1, .listen 0,
          .callUnlock 1, .listen 0]).peers j).entered = true → i = j) ∧
      ((((Host.boot 49993 false).run
          [.callLock 0, .callLock 1, .listen 1, .listen 0]).peers 0).inLock,
        (((Host.boot 49993 false).run
          [.callLock 0, .callLock 1, .listen 1, .listen 0]).peers 0).entered,
        (((Host.boot 49993 false).run
          [.callLock 0, .callLock 1, .listen 1, .listen 0]).peers 1).entered) =
        (true, false, true) ∧
      ((((Host.boot 49993 false).run [.callLock 0, .callLock 1, .listen 1, .listen 0,
          .callUnlock 1, .listen 0]).peers 0).entered,
        (((Host.boot 49993 false).run [.callLock 0, .callLock 1, .listen 1, .listen 0,
          .callUnlock 1, .listen 0]).peers 1).entered) = (true, false) :=
  ⟨(C13_lock_is_exclusive_between_processes 49993 false [.callLock 0, .callLock 1, .listen 1,
      .listen 0, .callUnlock 1, .listen 0]).1, by decide, by decide⟩

/-- C14: `DeleteRequest` for the environment `(dc1, env1)` on a store with the regex 5 of
`(dc2, env2)` and the regex 7 of `(dc1, env1)`, over a store whose `Find` reports no error
when no row matches and whose `Delete` with a zero key has no condition.  The `id` "7.0"
does not parse as an integer, so `id_int` is 0, but the `Find`, which is given the text,
matches the regex 7; `db.Delete(&regex)` then runs with the identifier 0 and every regex
is gone, that of the other environment included.  The `id` "abc" does not parse either
and matches nothing; the handler goes on all the same and every regex is gone.  The `id`
"5" names a regex of the other environment, and it is that regex which is deleted. -/
theorem C14_delete_reaches_other_records :
    strconv.ParseInt "7.0" = (0, false) ∧
    ((Regexes.DeleteRequest (unconditional ⟨"", 0, "", ""⟩) 1 (request "DELETE" "7.0")
        (World.start mainConfig mixedStore)).map
          fun r => (r.2.db.regexes, r.2.response.map fun x => x.Status)) =
      some ([], some .SUCCESS) ∧
    ((Regexes.DeleteRequest (unconditional ⟨"", 0, "", ""⟩) 1 (request "DELETE" "abc")
        (World.start mainConfig mixedStore)).map
          fun r => (r.2.db.regexes, r.2.response.map fun x => x.Status)) =
      some ([], some .SUCCESS) ∧
    ((Regexes.DeleteRequest (unconditional ⟨"", 0, "", ""⟩) 1 (request "DELETE" "5")
        (World.start mainConfig mixedStore)).map
          fun r => (r.2.db.regexes, r.2.response.map fun x => x.Status)) =
      some ([ownRegex], some .SUCCESS) := by
  decide

end Obdi
